import Mathlib

/-!
Shallow embedding of the Valorant analytics agent tools (src/tools.ts):
the active-player state, the incremental match-sync engine backed by three
SQLite tables, and the aggregation queries.  Machine arithmetic on the
statistics is modelled with Int and Rat; JavaScript nullish values are
modelled with Option; the upstream HenrikDev API is a function from
(region, name, tag) to a response.
-/

namespace ValAgent

attribute [local semireducible] Rat.mul Rat.inv Rat.add Rat.sub

/-- Regions supported by the HenrikDev API, in the fixed probe order
(constant REGIONS in src/tools.ts). -/
def REGIONS : List String := ["na", "eu", "ap", "kr", "latam", "br"]

/-- JavaScript nullish coalescing a ?? b on possibly-null values. -/
def jsOr (a b : Option α) : Option α :=
  match a with
  | some v => some v
  | none => b

/-- JavaScript truthiness of a nullable string: null/undefined and the
empty string are falsy. -/
def truthyStr (o : Option String) : Bool :=
  match o with
  | some s => s != ""
  | none => false

/-- Models new Date(ms).toISOString(): a deterministic injective rendering
of an epoch-milliseconds value as a string. -/
def isoOfEpochMs (ms : Nat) : String := "iso:" ++ toString ms

/-- The stats object of a roster entry (p.stats in the upstream payload). -/
structure PStats where
  kills : Option Int := none
  deaths : Option Int := none
  assists : Option Int := none
  score : Option Int := none
  bodyshots : Option Int := none
  headshots : Option Int := none
  legshots : Option Int := none
deriving DecidableEq, Repr

/-- An economy aggregate (p.economy.spent / p.economy.loadout_value). -/
structure MoneyAgg where
  overall : Option Int := none
  average : Option Rat := none
deriving DecidableEq, Repr

/-- The economy object of a roster entry. -/
structure Economy where
  spent : Option MoneyAgg := none
  loadout_value : Option MoneyAgg := none
deriving DecidableEq, Repr

/-- One entry of a match's full roster (players.all_players[i]). -/
structure RosterPlayer where
  name : Option String := none
  tag : Option String := none
  stats : Option PStats := none
  character : Option String := none
  currenttier_patched : Option String := none
  economy : Option Economy := none
  damage_made : Option Int := none
  damage_received : Option Int := none
deriving DecidableEq, Repr

/-- The metadata object of an upstream match payload. -/
structure Meta where
  matchid : Option String := none
  game_start_patched : Option String := none
  game_start : Option Nat := none
  map : Option String := none
  mode : Option String := none
deriving DecidableEq, Repr

/-- One raw upstream match payload: metadata, an optional top-level
matchid fallback, and the full roster (players.all_players, absent
modelled as []). -/
structure MatchPayload where
  metadata : Option Meta := none
  matchid : Option String := none
  players : List RosterPlayer := []
deriving DecidableEq, Repr

/-- Upstream HTTP response for a match-history request: res.ok, res.status
and the parsed json.data array (empty when not an array). -/
structure FetchResp where
  ok : Bool
  status : Nat
  data : List MatchPayload
deriving DecidableEq, Repr

/-- The upstream source: response per (region, name, tag) request. -/
abbrev Src := String → String → String → FetchResp

/-- fetchLatestCompetitive in src/tools.ts: on a non-ok response the
helper returns ok=false with the status and an empty data list; on an ok
response it returns status 200 and the payload list. -/
def fetchLatestCompetitive (src : Src) (name tag region : String) : FetchResp :=
  let resp := src region name tag
  if resp.ok then { ok := true, status := 200, data := resp.data }
  else { ok := false, status := resp.status, data := [] }

/-- matchId extraction in the sync loop: meta?.matchid ?? m?.matchid. -/
def matchIdOf (m : MatchPayload) : Option String :=
  jsOr (m.metadata.bind Meta.matchid) m.matchid

/-- matchId with default "", used to name the id of a payload known to
have one. -/
def midOfD (m : MatchPayload) : String := (matchIdOf m).getD ""

/-- started extraction: meta?.game_start_patched ??
(meta?.game_start ? new Date(meta.game_start * 1000).toISOString() : null).
Note game_start = 0 is falsy in JavaScript. -/
def startedOf (meta : Option Meta) : Option String :=
  match meta with
  | none => none
  | some md =>
    jsOr md.game_start_patched
      (match md.game_start with
       | some t => if t ≠ 0 then some (isoOfEpochMs (t * 1000)) else none
       | none => none)

/-- ASCII lowering of one character, as String.prototype.toLowerCase
acts on the ASCII range these identifiers use. -/
def charLower (c : Char) : Char :=
  if 65 ≤ c.toNat ∧ c.toNat ≤ 90 then Char.ofNat (c.toNat + 32) else c

/-- Models String.prototype.toLowerCase. -/
def jsToLower (s : String) : String := String.mk (s.data.map charLower)

/-- The whitespace characters trim removes on these identifiers. -/
def isWsp (c : Char) : Bool := c = ' ' || c = '\t' || c = '\n' || c = '\r'

/-- Models String.prototype.trim: drop whitespace from both ends. -/
def jsTrim (s : String) : String :=
  String.mk (((s.data.dropWhile isWsp).reverse.dropWhile isWsp).reverse)

/-- The case-insensitive roster lookup predicate:
pp?.name?.toLowerCase() === active.name.toLowerCase() and likewise for
the tag (undefined names compare unequal). -/
def rosterMatches (name tag : String) (pp : RosterPlayer) : Bool :=
  (match pp.name with
   | some s => jsToLower s == jsToLower name
   | none => false) &&
  (match pp.tag with
   | some s => jsToLower s == jsToLower tag
   | none => false)

/-- The roster entry of the target player inside a match payload. -/
def playerOf (name tag : String) (m : MatchPayload) : Option RosterPlayer :=
  m.players.find? (rosterMatches name tag)

/-- One row of the valorant_matches table (PRIMARY KEY id). -/
structure MatchRow where
  id : String
  region : String
  name : String
  tag : String
  started_at : Option String
  mode : Option String
  map : Option String
  player_kills : Option Int
  player_deaths : Option Int
  player_assists : Option Int
  raw : Option String
deriving DecidableEq, Repr

/-- One row of the valorant_player_stats table (PRIMARY KEY match_id). -/
structure StatsRow where
  match_id : String
  region : String
  name : String
  tag : String
  character : Option String
  rank : Option String
  kills : Option Int
  deaths : Option Int
  assists : Option Int
  bodyshots : Option Int
  headshots : Option Int
  legshots : Option Int
  score : Option Int
  spent_overall : Option Int
  spent_avg : Option Rat
  loadout_overall : Option Int
  loadout_avg : Option Rat
  damage_made : Option Int
  damage_received : Option Int
deriving DecidableEq, Repr

/-- One row of the player_cursor table (PRIMARY KEY pk). -/
structure CursorRow where
  pk : String
  last_match_id : Option String
  last_started_at : Option String
deriving DecidableEq, Repr

/-- The agent's embedded SQLite database: the three tables, as row lists
in rowid (insertion) order. -/
structure Db where
  valorant_matches : List MatchRow := []
  valorant_player_stats : List StatsRow := []
  player_cursor : List CursorRow := []
deriving DecidableEq, Repr

/-- The active player identity held in agent state. -/
structure ActivePlayer where
  region : Option String
  name : String
  tag : String
deriving DecidableEq, Repr

/-- Full agent state: the activePlayer field of this.state plus the
embedded database. -/
structure AgentFull where
  activePlayer : Option ActivePlayer := none
  db : Db := {}
deriving DecidableEq, Repr

/-- The MatchRecord row built for a new match in the sync loop (the
INSERT OR IGNORE INTO valorant_matches values; raw is always null). -/
def toMatchRow (name tag region : String) (m : MatchPayload) (mid : String) : MatchRow :=
  let p := playerOf name tag m
  { id := mid
    region := region
    name := name
    tag := tag
    started_at := startedOf m.metadata
    mode := m.metadata.bind Meta.mode
    map := m.metadata.bind Meta.map
    player_kills := (p.bind RosterPlayer.stats).bind PStats.kills
    player_deaths := (p.bind RosterPlayer.stats).bind PStats.deaths
    player_assists := (p.bind RosterPlayer.stats).bind PStats.assists
    raw := none }

/-- The PlayerMatchStats row upserted for a match in the sync loop (the
INSERT OR REPLACE INTO valorant_player_stats values). -/
def toStatsRow (name tag region : String) (m : MatchPayload) (mid : String) : StatsRow :=
  let p := playerOf name tag m
  { match_id := mid
    region := region
    name := name
    tag := tag
    character := p.bind RosterPlayer.character
    rank := p.bind RosterPlayer.currenttier_patched
    kills := (p.bind RosterPlayer.stats).bind PStats.kills
    deaths := (p.bind RosterPlayer.stats).bind PStats.deaths
    assists := (p.bind RosterPlayer.stats).bind PStats.assists
    bodyshots := (p.bind RosterPlayer.stats).bind PStats.bodyshots
    headshots := (p.bind RosterPlayer.stats).bind PStats.headshots
    legshots := (p.bind RosterPlayer.stats).bind PStats.legshots
    score := (p.bind RosterPlayer.stats).bind PStats.score
    spent_overall := ((p.bind RosterPlayer.economy).bind Economy.spent).bind MoneyAgg.overall
    spent_avg := ((p.bind RosterPlayer.economy).bind Economy.spent).bind MoneyAgg.average
    loadout_overall := ((p.bind RosterPlayer.economy).bind Economy.loadout_value).bind MoneyAgg.overall
    loadout_avg := ((p.bind RosterPlayer.economy).bind Economy.loadout_value).bind MoneyAgg.average
    damage_made := p.bind RosterPlayer.damage_made
    damage_received := p.bind RosterPlayer.damage_received }

/-- INSERT OR REPLACE keyed by match_id: SQLite deletes any conflicting
row and appends the new one. -/
def statsUpsert (stats : List StatsRow) (row : StatsRow) : List StatsRow :=
  stats.filter (fun r => r.match_id != row.match_id) ++ [row]

/-- INSERT ... ON CONFLICT(pk) DO UPDATE on player_cursor: update the
existing row in place, otherwise append a fresh row. -/
def cursorUpsert (cursors : List CursorRow) (pk nid : String) (nstarted : Option String) :
    List CursorRow :=
  if cursors.any (fun r => r.pk == pk) then
    cursors.map (fun r =>
      if r.pk == pk then { r with last_match_id := some nid, last_started_at := nstarted } else r)
  else cursors ++ [{ pk := pk, last_match_id := some nid, last_started_at := nstarted }]

/-- SELECT last_match_id FROM player_cursor WHERE pk = ...; the code then
takes cur?.[0]?.last_match_id ?? null. -/
def cursorLookup (cursors : List CursorRow) (pk : String) : Option String :=
  ((cursors.filter (fun r => r.pk == pk)).head?).bind CursorRow.last_match_id

/-- The cursor partition key: region:name:tag. -/
def pkOf (name tag region : String) : String :=
  region ++ ":" ++ name ++ ":" ++ tag

/-- The stop-on-known-match test: lastKnownId && matchId === lastKnownId
(an empty-string cursor value is falsy and never stops the walk). -/
def breakCond (lastKnownId : Option String) (mid : String) : Bool :=
  match lastKnownId with
  | some l => (l != "") && (l == mid)
  | none => false

/-- The sequence of non-falsy match ids the sync walk processes before
it stops: a pure recount of the walk's control flow, used to reason
about the walk. -/
def loopKeys (lastKnownId : Option String) : List MatchPayload → List String
  | [] => []
  | m :: rest =>
    match matchIdOf m with
    | none => loopKeys lastKnownId rest
    | some mid =>
      if mid = "" then loopKeys lastKnownId rest
      else if breakCond lastKnownId mid then []
      else mid :: loopKeys lastKnownId rest

/-- The per-match body of the sync walk in ingestOrRefreshMatches:
walk matches newest-first; skip payloads with a falsy match id; stop at
the cursor's lastMatchId; otherwise insert-if-absent into
valorant_matches (counting inserts) and upsert valorant_player_stats. -/
def ingestLoop (name tag region : String) (lastKnownId : Option String) :
    List MatchPayload → Db → Nat → Db × Nat
  | [], db, inserted => (db, inserted)
  | m :: rest, db, inserted =>
    match matchIdOf m with
    | none => ingestLoop name tag region lastKnownId rest db inserted
    | some mid =>
      if mid = "" then ingestLoop name tag region lastKnownId rest db inserted
      else if breakCond lastKnownId mid then (db, inserted)
      else
        let already := db.valorant_matches.any (fun r => r.id == mid)
        let db1 :=
          if already then db
          else { db with valorant_matches := db.valorant_matches ++ [toMatchRow name tag region m mid] }
        let inserted1 := if already then inserted else inserted + 1
        let db2 := { db1 with valorant_player_stats := statsUpsert db1.valorant_player_stats (toStatsRow name tag region m mid) }
        ingestLoop name tag region lastKnownId rest db2 inserted1

/-- Result of the ingestOrRefreshMatches tool. -/
inductive IngestResult where
  | noActivePlayer
  | regionUnresolved
  | upstreamError (status : Nat)
  | refreshed (name tag region : String) (inserted : Nat)
deriving DecidableEq, Repr

/-- Inserted-row count reported by an ingest result (0 on errors). -/
def IngestResult.insertedCount : IngestResult → Nat
  | .refreshed _ _ _ n => n
  | _ => 0

/-- The region-resolution probe: walk REGIONS in order, fetch once per
candidate, and stop at the first ok response with a non-empty data list. -/
def probeRegions (src : Src) (name tag : String) : List String → Option String
  | [] => none
  | r :: rest =>
    let r1 := fetchLatestCompetitive src name tag r
    if r1.ok && decide (0 < r1.data.length) then some r
    else probeRegions src name tag rest

/-- The post-resolution part of ingestOrRefreshMatches: read the cursor,
fetch the newest page, abort on upstream failure, walk the page through
ingestLoop, and advance the cursor to the page head when it has a truthy
match id. -/
def mainSync (src : Src) (name tag region : String) (ag : AgentFull) :
    IngestResult × AgentFull :=
  let pk := pkOf name tag region
  let lastKnownId := cursorLookup ag.db.player_cursor pk
  let res := fetchLatestCompetitive src name tag region
  if res.ok then
    let page := res.data
    let newestId : Option String :=
      match page.head? with
      | none => none
      | some m0 => matchIdOf m0
    let newestStarted : Option String :=
      match page.head? with
      | none => none
      | some m0 => startedOf m0.metadata
    let r := ingestLoop name tag region lastKnownId page ag.db 0
    let db2 :=
      match newestId with
      | some nid =>
        if nid = "" then r.1
        else { r.1 with player_cursor := cursorUpsert r.1.player_cursor pk nid newestStarted }
      | none => r.1
    (.refreshed name tag region r.2, { ag with db := db2 })
  else (.upstreamError res.status, ag)

/-- The database produced by the ok-branch of mainSync, written as a
standalone function of the incoming database and the fetched page (used
to state lemmas about mainSync). -/
def syncDb (n t rg : String) (db : Db) (ms : List MatchPayload) : Db :=
  let pk := pkOf n t rg
  let r := ingestLoop n t rg (cursorLookup db.player_cursor pk) ms db 0
  match ms.head? with
  | none => r.1
  | some m0 =>
    match matchIdOf m0 with
    | some nid =>
      if nid = "" then r.1
      else { r.1 with
             player_cursor := cursorUpsert r.1.player_cursor pk nid (startedOf m0.metadata) }
    | none => r.1

/-- The ingestOrRefreshMatches tool: guard on the active player (JS
falsiness: an empty name or tag also fails the guard), resolve the
region — probing REGIONS and persisting the first success onto the
active player when absent — then run the main sync. -/
def ingestOrRefreshMatches (src : Src) (ag : AgentFull) : IngestResult × AgentFull :=
  match ag.activePlayer with
  | none => (.noActivePlayer, ag)
  | some active =>
    if active.name = "" || active.tag = "" then (.noActivePlayer, ag)
    else
      match active.region with
      | some region => mainSync src active.name active.tag region ag
      | none =>
        match probeRegions src active.name active.tag REGIONS with
        | none => (.regionUnresolved, ag)
        | some region =>
          mainSync src active.name active.tag region
            { ag with activePlayer := some { active with region := some region } }

/-- The resolved region of a sync call: the identity's own region when
present, otherwise the result of the probe. -/
def resolveRegion (src : Src) (active : ActivePlayer) : Option String :=
  match active.region with
  | some r => some r
  | none => probeRegions src active.name active.tag REGIONS

/-- splitRiotId in src/tools.ts applied to the character list: split at
the FIRST occurrence of the hash character (String#indexOf / slice). -/
def splitAtHash : List Char → Option (List Char × List Char)
  | [] => none
  | c :: cs =>
    if c = '#' then some ([], cs)
    else (splitAtHash cs).map (fun nt => (c :: nt.1, nt.2))

/-- splitRiotId: trim, find the first hash; null when there is none,
otherwise name = text before it and tag = text after it. -/
def splitRiotId (riotId : String) : Option (String × String) :=
  let s := jsTrim riotId
  (splitAtHash s.data).map (fun nt => (String.mk nt.1, String.mk nt.2))

/-- Input object of the setActivePlayer tool (all fields optional). -/
structure SetActiveInput where
  riotId : Option String := none
  name : Option String := none
  tag : Option String := none
  region : Option String := none
deriving DecidableEq, Repr

/-- Result of the setActivePlayer tool. -/
inductive SetActiveResult where
  | invalidRiotId
  | missingNameTag
  | ok (name tag : String) (region : Option String)
deriving DecidableEq, Repr

/-- True on the two error replies of setActivePlayer. -/
def SetActiveResult.isErr : SetActiveResult → Bool
  | .ok _ _ _ => false
  | _ => true

/-- The final guard and state write of setActivePlayer: name or tag
falsy (undefined was handled by the caller, the empty string is falsy)
yields the "Please provide ..." reply, otherwise the activePlayer state
is overwritten. -/
def finishSetActive (name tag : String) (region : Option String) (ag : AgentFull) :
    SetActiveResult × AgentFull :=
  if name = "" || tag = "" then (.missingNameTag, ag)
  else (.ok name tag region,
        { ag with activePlayer := some { region := region, name := name, tag := tag } })

/-- The setActivePlayer tool: when riotId is given its parse overrides
name/tag (an unparsable riotId is rejected outright); then the name/tag
presence guard runs and on success the active player is replaced. -/
def setActivePlayer (input : SetActiveInput) (ag : AgentFull) :
    SetActiveResult × AgentFull :=
  match input.riotId with
  | some rid =>
    match splitRiotId rid with
    | none => (.invalidRiotId, ag)
    | some nt => finishSetActive nt.1 nt.2 input.region ag
  | none =>
    match input.name, input.tag with
    | some n, some t => finishSetActive n t input.region ag
    | some n, none => finishSetActive n "" input.region ag
    | none, some t => finishSetActive "" t input.region ag
    | none, none => finishSetActive "" "" input.region ag

/-- Number#toFixed(2) read back with Number(...): rounding to two decimal
places (ties rounded up, as an idealisation of the IEEE-754 formatting). -/
def toFixed2 (q : Rat) : Rat := (round (q * 100) : Int) / 100

/-- SQLite BINARY collation on TEXT values: lexicographic comparison of
the code points. -/
def charListLt : List Char → List Char → Bool
  | [], [] => false
  | [], _ :: _ => true
  | _ :: _, [] => false
  | a :: as, b :: bs =>
    if a.toNat < b.toNat then true
    else if b.toNat < a.toNat then false
    else charListLt as bs

/-- Strict text order used by ORDER BY (BINARY collation). -/
def strLtB (a b : String) : Bool := charListLt a.data b.data

/-- ORDER BY key DESC: stable insertion of x in front of the first
element whose key is strictly smaller. -/
def insertDescBy (key : α → String) (x : α) : List α → List α
  | [] => [x]
  | y :: ys => if strLtB (key y) (key x) then x :: y :: ys else y :: insertDescBy key x ys

/-- ORDER BY key DESC over a whole result set (stable). -/
def sortDescBy (key : α → String) : List α → List α
  | [] => []
  | x :: xs => insertDescBy key x (sortDescBy key xs)

/-- COALESCE(started_at, '') on a nullable column. -/
def coalesceStr (o : Option String) : String := o.getD ""

/-- The row selection of queryKDR: WHERE name = active.name AND
tag = active.tag (SQLite default BINARY collation, hence case-sensitive)
AND optionally map = map, ORDER BY COALESCE(started_at,'') DESC,
LIMIT lastN. -/
def kdrSelect (db : Db) (name tag : String) (mapFilter : Option String) (lastN : Nat) :
    List MatchRow :=
  let base := db.valorant_matches.filter (fun r =>
    r.name == name && r.tag == tag &&
    (match mapFilter with
     | some mp => r.map == some mp
     | none => true))
  (sortDescBy (fun r => coalesceStr r.started_at) base).take lastN

/-- The reported KDR value: a finite number or the "Infinity" string. -/
inductive KdrVal where
  | infinity
  | fin (q : Rat)
deriving DecidableEq, Repr

/-- Result of the queryKDR tool. -/
inductive KdrResult where
  | noActivePlayer
  | noData
  | result (matchesConsidered : Nat) (map : String) (averageKDR : KdrVal)
deriving DecidableEq, Repr

/-- The queryKDR tool: guard on the active player, select the window,
return the distinguished no-data reply on an empty selection, otherwise
sum kills/deaths with non-numbers (nulls) as 0 and report the average
KDR (Infinity when deaths sum to 0 with positive kills, 0 when both sums
are 0, else the rounded quotient). -/
def queryKDR (mapFilter : Option String) (lastN : Nat) (ag : AgentFull) : KdrResult :=
  match ag.activePlayer with
  | none => .noActivePlayer
  | some active =>
    if active.name = "" || active.tag = "" then .noActivePlayer
    else
      let rows := kdrSelect ag.db active.name active.tag mapFilter lastN
      if rows.isEmpty then .noData
      else
        let ks := rows.map (fun r => r.player_kills.getD 0)
        let ds := rows.map (fun r => r.player_deaths.getD 0)
        let sumK : Int := ks.foldl (fun a b => a + b) 0
        let sumD : Int := ds.foldl (fun a b => a + b) 0
        let kdr : KdrVal :=
          if sumD = 0 then (if 0 < sumK then .infinity else .fin 0)
          else .fin ((sumK : Rat) / (sumD : Rat))
        let reported : KdrVal :=
          match kdr with
          | .infinity => .infinity
          | .fin q => .fin (toFixed2 q)
        .result rows.length (mapFilter.getD "all") reported

/-- The row selection of summarizeRecentPerformance: join
valorant_player_stats with valorant_matches on m.id = ps.match_id,
filter by ps.name/ps.tag (case-sensitive =) and optionally m.map, order
by COALESCE(m.started_at,'') DESC, limit lastN, and project the stats
columns. -/
def summarySelect (db : Db) (name tag : String) (mapFilter : Option String) (lastN : Nat) :
    List StatsRow :=
  let joined := db.valorant_player_stats.flatMap (fun ps =>
    (db.valorant_matches.filter (fun m => m.id == ps.match_id)).map (fun m => (ps, m)))
  let base := joined.filter (fun pm =>
    pm.1.name == name && pm.1.tag == tag &&
    (match mapFilter with
     | some mp => pm.2.map == some mp
     | none => true))
  ((sortDescBy (fun pm => coalesceStr pm.2.started_at) base).take lastN).map (fun pm => pm.1)

/-- The averages record reported by summarizeRecentPerformance. -/
structure SummaryAverages where
  kills : Rat
  deaths : Rat
  assists : Rat
  kdr : KdrVal
  score : Rat
  damageMade : Rat
  damageReceived : Rat
  headshotRatePct : Rat
  spentOverall : Rat
  spentAvgPerRound : Rat
  loadoutOverall : Rat
  loadoutAvgPerRound : Rat
deriving DecidableEq, Repr

/-- The success payload of summarizeRecentPerformance. -/
structure SummaryOut where
  matchesConsidered : Nat
  map : String
  averages : SummaryAverages
deriving DecidableEq, Repr

/-- Result of the summarizeRecentPerformance tool. -/
inductive SummaryResult where
  | noActivePlayer
  | noData
  | result (out : SummaryOut)
deriving DecidableEq, Repr

/-- sum(arr) in summarizeRecentPerformance: reduce with b ?? 0. -/
def sumOptInt (arr : List (Option Int)) : Int :=
  arr.foldl (fun a b => a + b.getD 0) 0

/-- sum over the two REAL columns (spent_avg / loadout_avg). -/
def sumOptRat (arr : List (Option Rat)) : Rat :=
  arr.foldl (fun a b => a + b.getD 0) 0

/-- The summarizeRecentPerformance tool: guard, select, distinguished
no-data reply on empty selection; otherwise sum every projected column
with nulls as 0 and report per-match averages, the KDR with its
zero-deaths guard, and the headshot percentage with its zero-shots
guard. -/
def summarizeRecentPerformance (mapFilter : Option String) (lastN : Nat) (ag : AgentFull) :
    SummaryResult :=
  match ag.activePlayer with
  | none => .noActivePlayer
  | some active =>
    if active.name = "" || active.tag = "" then .noActivePlayer
    else
      let rows := summarySelect ag.db active.name active.tag mapFilter lastN
      if rows.isEmpty then .noData
      else
        let n : Nat := rows.length
        let kills := sumOptInt (rows.map StatsRow.kills)
        let deaths := sumOptInt (rows.map StatsRow.deaths)
        let assists := sumOptInt (rows.map StatsRow.assists)
        let headshots := sumOptInt (rows.map StatsRow.headshots)
        let bodyshots := sumOptInt (rows.map StatsRow.bodyshots)
        let legshots := sumOptInt (rows.map StatsRow.legshots)
        let score := sumOptInt (rows.map StatsRow.score)
        let damage_made := sumOptInt (rows.map StatsRow.damage_made)
        let damage_received := sumOptInt (rows.map StatsRow.damage_received)
        let avg : Rat → Rat := fun x => toFixed2 (if 0 < n then x / (n : Rat) else 0)
        let shotsTotal := headshots + bodyshots + legshots
        let hsRate : Rat :=
          if 0 < shotsTotal then toFixed2 (((headshots : Rat) / (shotsTotal : Rat)) * 100)
          else 0
        let avgSpentOverall := avg (sumOptInt (rows.map StatsRow.spent_overall) : Rat)
        let avgSpent := toFixed2
          (if 0 < n then sumOptRat (rows.map StatsRow.spent_avg) / (n : Rat) else 0)
        let avgLoadoutOverall := avg (sumOptInt (rows.map StatsRow.loadout_overall) : Rat)
        let avgLoadout := toFixed2
          (if 0 < n then sumOptRat (rows.map StatsRow.loadout_avg) / (n : Rat) else 0)
        let kdr : KdrVal :=
          if deaths = 0 then (if 0 < kills then .infinity else .fin 0)
          else .fin (toFixed2 ((kills : Rat) / (deaths : Rat)))
        .result
          { matchesConsidered := n
            map := mapFilter.getD "all"
            averages :=
              { kills := avg (kills : Rat)
                deaths := avg (deaths : Rat)
                assists := avg (assists : Rat)
                kdr := kdr
                score := avg (score : Rat)
                damageMade := avg (damage_made : Rat)
                damageReceived := avg (damage_received : Rat)
                headshotRatePct := hsRate
                spentOverall := avgSpentOverall
                spentAvgPerRound := avgSpent
                loadoutOverall := avgLoadoutOverall
                loadoutAvgPerRound := avgLoadout } }

/-- The row selection of listRecentMatches: same WHERE/ORDER BY/LIMIT as
queryKDR without a map filter. -/
def listRecentSelect (db : Db) (name tag : String) (limit : Nat) : List MatchRow :=
  let base := db.valorant_matches.filter (fun r => r.name == name && r.tag == tag)
  (sortDescBy (fun r => coalesceStr r.started_at) base).take limit

/-- Result of the listRecentMatches tool: the error replies or the
selected rows (the tool renders them as numbered text lines). -/
inductive ListResult where
  | noActivePlayer
  | noData
  | rows (rs : List MatchRow)
deriving DecidableEq, Repr

/-- The listRecentMatches tool. -/
def listRecentMatches (limit : Nat) (ag : AgentFull) : ListResult :=
  match ag.activePlayer with
  | none => .noActivePlayer
  | some active =>
    if active.name = "" || active.tag = "" then .noActivePlayer
    else
      let rs := listRecentSelect ag.db active.name active.tag limit
      if rs.isEmpty then .noData else .rows rs

/-- The KDR value reported inside a summary result, when any. -/
def SummaryResult.kdrOf : SummaryResult → Option KdrVal
  | .result out => some out.averages.kdr
  | _ => none

/-- The headshot percentage reported inside a summary result, when any. -/
def SummaryResult.hsRateOf : SummaryResult → Option Rat
  | .result out => some out.averages.headshotRatePct
  | _ => none

/-- The KDR value computed from summed kills and deaths as the tools
report it: undefined/infinite on positive kills with zero deaths,
exactly 0 on zero kills and zero deaths, otherwise the quotient rounded
to two decimals. -/
def kdrReport (k d : Int) : KdrVal :=
  if d = 0 then (if 0 < k then .infinity else .fin 0)
  else .fin (toFixed2 ((k : Rat) / (d : Rat)))

/-- The headshot figure summarizeRecentPerformance reports over summed
shot counts: 100 × headshots / (headshots + bodyshots + legshots)
rounded to two decimals, and 0 when the denominator is not positive. -/
def hsReport (h b l : Int) : Rat :=
  if 0 < h + b + l then toFixed2 (((h : Rat) / ((h + b + l : Int) : Rat)) * 100) else 0

/-! ### Concrete example data for the closed instances -/

/-- A concrete upstream payload with a one-entry roster. -/
def examplePayload (mid : String) (tstart : Nat) (pname ptag : String)
    (k d hs bs ls : Int) : MatchPayload :=
  { metadata := some
      { matchid := some mid
        game_start := some tstart
        map := some "Ascent"
        mode := some "Competitive" }
    players :=
      [{ name := some pname
         tag := some ptag
         stats := some
           { kills := some k
             deaths := some d
             assists := some 1
             score := some 200
             bodyshots := some bs
             headshots := some hs
             legshots := some ls } }] }

/-- An active player with a known region. -/
def apOllie : ActivePlayer := { region := some "na", name := "ollie", tag := "chaos" }

/-- An active player whose region is still unresolved. -/
def apNoRegion : ActivePlayer := { region := none, name := "ollie", tag := "chaos" }

def payloadM1 : MatchPayload := examplePayload "m1" 800 "ollie" "chaos" 5 2 1 1 0

def payloadM2 : MatchPayload := examplePayload "m2" 900 "ollie" "chaos" 7 3 1 1 0

/-- Upstream source whose na page holds m2 (new) above m1 (known). -/
def srcW1 : Src := fun rg _ _ =>
  if rg = "na" then { ok := true, status := 200, data := [payloadM2, payloadM1] }
  else { ok := true, status := 200, data := [] }

def crowW1 : CursorRow :=
  { pk := "na:ollie:chaos", last_match_id := some "m1", last_started_at := some "iso:800000" }

/-- State with m1 already stored and the cursor at m1. -/
def agW1 : AgentFull :=
  { activePlayer := some apOllie
    db := { valorant_matches := [toMatchRow "ollie" "chaos" "na" payloadM1 "m1"]
            valorant_player_stats := [toStatsRow "ollie" "chaos" "na" payloadM1 "m1"]
            player_cursor := [crowW1] } }

/-- Numbered payloads m4..m8 for the delta-bounding example. -/
def payloadIdx (i : Nat) : MatchPayload :=
  examplePayload ("m" ++ toString i) (100 * i) "ollie" "chaos" 5 2 1 1 0

/-- Upstream source returning the page [m8, m7, m6, m5, m4]. -/
def srcW2 : Src := fun rg _ _ =>
  if rg = "na" then
    { ok := true, status := 200,
      data := [payloadIdx 8, payloadIdx 7, payloadIdx 6, payloadIdx 5, payloadIdx 4] }
  else { ok := true, status := 200, data := [] }

/-- State whose cursor stands at m5 with an empty match store. -/
def agW2 : AgentFull :=
  { activePlayer := some apOllie
    db := { player_cursor :=
      [{ pk := "na:ollie:chaos", last_match_id := some "m5", last_started_at := none }] } }

/-- A match two players appear in: alice#one and bob#two. -/
def sharedPayload : MatchPayload :=
  { metadata := some
      { matchid := some "m1"
        game_start := some 700
        map := some "Ascent"
        mode := some "Competitive" }
    players :=
      [{ name := some "alice"
         tag := some "one"
         stats := some
           { kills := some 5
             deaths := some 2
             assists := some 1
             score := some 250
             bodyshots := some 4
             headshots := some 2
             legshots := some 1 } },
       { name := some "bob"
         tag := some "two"
         stats := some
           { kills := some 3
             deaths := some 4
             assists := some 2
             score := some 150
             bodyshots := some 5
             headshots := some 1
             legshots := some 0 } }] }

def rowAlice : MatchRow := toMatchRow "alice" "one" "na" sharedPayload "m1"

def statsAlice : StatsRow := toStatsRow "alice" "one" "na" sharedPayload "m1"

def apBob : ActivePlayer := { region := some "na", name := "bob", tag := "two" }

/-- Upstream source returning the shared match for every request. -/
def srcShared : Src := fun _ _ _ => { ok := true, status := 200, data := [sharedPayload] }

/-- State holding alice's rows for the shared match, with bob active. -/
def agShared : AgentFull :=
  { activePlayer := some apBob
    db := { valorant_matches := [rowAlice]
            valorant_player_stats := [statsAlice]
            player_cursor := [] } }

def payloadBob9 : MatchPayload := examplePayload "m9" 900 "bob" "two" 4 1 1 1 0

/-- Upstream source returning a fresh match m9 for bob. -/
def srcW3 : Src := fun rg _ _ =>
  if rg = "na" then { ok := true, status := 200, data := [payloadBob9] }
  else { ok := true, status := 200, data := [] }

/-- State holding alice's rows, with bob active, for the disjoint sync. -/
def agW3 : AgentFull :=
  { activePlayer := some apBob
    db := { valorant_matches := [rowAlice]
            valorant_player_stats := [statsAlice]
            player_cursor := [] } }

/-- Upstream source failing with a 503 for the na region. -/
def srcErr : Src := fun rg _ _ =>
  if rg = "na" then { ok := false, status := 503, data := [] }
  else { ok := true, status := 200, data := [] }

/-- Upstream source where only the eu region has data. -/
def srcEuOnly : Src := fun rg _ _ =>
  if rg = "eu" then { ok := true, status := 200, data := [payloadM1] }
  else { ok := true, status := 200, data := [] }

/-- State for region probing: active player without a region. -/
def agW5 : AgentFull := { activePlayer := some apNoRegion, db := {} }

def payloadTenZero : MatchPayload := examplePayload "m6" 600 "ollie" "chaos" 10 0 1 1 0

/-- State with one stored match of 10 kills and 0 deaths. -/
def agW6 : AgentFull :=
  { activePlayer := some apOllie
    db := { valorant_matches := [toMatchRow "ollie" "chaos" "na" payloadTenZero "m6"]
            valorant_player_stats := [toStatsRow "ollie" "chaos" "na" payloadTenZero "m6"]
            player_cursor := [] } }

/-- A stored match row whose name differs from the active player's only
in letter case. -/
def rowCased : MatchRow :=
  { id := "m1", region := "na", name := "Ollie", tag := "chaos",
    started_at := some "iso:800000", mode := some "Competitive", map := some "Ascent",
    player_kills := some 5, player_deaths := some 2, player_assists := some 1, raw := none }

/-- State whose only stored row is under the differently-cased name. -/
def agC7 : AgentFull :=
  { activePlayer := some apOllie
    db := { valorant_matches := [rowCased], valorant_player_stats := [], player_cursor := [] } }

/-- A roster entry in upper case. -/
def ppW7 : RosterPlayer := { name := some "OLLIE", tag := some "CHAOS" }

def payloadShots : MatchPayload := examplePayload "m8x" 500 "ollie" "chaos" 2 1 1 1 0

/-- State with one stored match of 1 headshot, 1 bodyshot, 0 legshots. -/
def agW8 : AgentFull :=
  { activePlayer := some apOllie
    db := { valorant_matches := [toMatchRow "ollie" "chaos" "na" payloadShots "m8x"]
            valorant_player_stats := [toStatsRow "ollie" "chaos" "na" payloadShots "m8x"]
            player_cursor := [] } }

/-- A stored match row with null kill and death counts. -/
def rowNull (i : String) : MatchRow :=
  { id := i, region := "na", name := "ollie", tag := "chaos",
    started_at := none, mode := none, map := none,
    player_kills := none, player_deaths := none, player_assists := none, raw := none }

/-- State whose stored window consists only of null-stat shell rows. -/
def agW10 : AgentFull :=
  { activePlayer := some apOllie
    db := { valorant_matches := [rowNull "x1", rowNull "x2"]
            valorant_player_stats := [], player_cursor := [] } }

/-! ### General lemmas about the embedded operations -/

theorem mem_insertDescBy {key : α → String} {x a : α} {l : List α} :
    a ∈ insertDescBy key x l ↔ a = x ∨ a ∈ l := by
  induction l with
  | nil => simp [insertDescBy]
  | cons y ys ih =>
    simp only [insertDescBy]
    split
    · simp
    · simp only [List.mem_cons, ih]
      tauto

theorem mem_sortDescBy {key : α → String} {a : α} {l : List α} :
    a ∈ sortDescBy key l ↔ a ∈ l := by
  induction l with
  | nil => simp [sortDescBy]
  | cons y ys ih => simp [sortDescBy, mem_insertDescBy, ih]

theorem sumOptInt_eq_sum (arr : List (Option Int)) :
    sumOptInt arr = (arr.map (fun o => o.getD 0)).sum := by
  unfold sumOptInt
  rw [List.sum_eq_foldl, List.foldl_map]

theorem cursorUpsert_any (cs : List CursorRow) (pk nid : String) (ns : Option String) :
    (cursorUpsert cs pk nid ns).any (fun r => r.pk == pk) = true := by
  unfold cursorUpsert
  split
  · rename_i h
    rw [List.any_map]
    rw [List.any_eq_true] at h ⊢
    obtain ⟨r, hr, hpk⟩ := h
    refine ⟨r, hr, ?_⟩
    simp only [Function.comp_apply, hpk]
    simpa using hpk
  · simp

theorem cursorLookup_upsert_self (cs : List CursorRow) (pk nid : String) (ns : Option String) :
    cursorLookup (cursorUpsert cs pk nid ns) pk = some nid := by
  unfold cursorUpsert
  split
  · rename_i h
    unfold cursorLookup
    induction cs with
    | nil => simp at h
    | cons c cs' ih =>
      by_cases hc : c.pk == pk
      · simp only [List.map_cons, List.filter_cons, hc, if_pos]
        simp [hc]
      · simp only [List.any_cons, hc, Bool.false_or] at h
        simp only [List.map_cons, List.filter_cons, hc]
        simpa [hc] using ih h
  · rename_i h
    unfold cursorLookup
    rw [List.filter_append]
    have hnil : cs.filter (fun r => r.pk == pk) = [] := by
      rw [List.filter_eq_nil_iff]
      intro r hr
      rw [List.any_eq_true] at h
      push_neg at h
      simpa using h r hr
    simp [hnil]

theorem cursorUpsert_rows (cs : List CursorRow) (pk nid : String) (ns : Option String) :
    ∀ r ∈ cursorUpsert cs pk nid ns, r.pk == pk →
      r.last_match_id = some nid ∧ r.last_started_at = ns := by
  unfold cursorUpsert
  split
  · intro r hr hpk
    rw [List.mem_map] at hr
    obtain ⟨r0, _, hr0⟩ := hr
    by_cases h0 : r0.pk == pk
    · rw [if_pos h0] at hr0
      subst hr0
      exact ⟨rfl, rfl⟩
    · rw [if_neg h0] at hr0
      subst hr0
      exact absurd hpk (by simpa using h0)
  · rename_i h
    intro r hr hpk
    rw [List.mem_append] at hr
    rcases hr with hr | hr
    · rw [Bool.not_eq_true, List.any_eq_false] at h
      exact absurd hpk (by simpa using h r hr)
    · simp only [List.mem_singleton] at hr
      subst hr
      exact ⟨rfl, rfl⟩

theorem cursorUpsert_stable (l : List CursorRow) (pk nid : String) (ns : Option String)
    (h1 : l.any (fun r => r.pk == pk) = true)
    (h2 : ∀ r ∈ l, r.pk == pk → r.last_match_id = some nid ∧ r.last_started_at = ns) :
    cursorUpsert l pk nid ns = l := by
  unfold cursorUpsert
  rw [if_pos h1]
  have hcongr : ∀ r ∈ l,
      (if r.pk == pk then { r with last_match_id := some nid, last_started_at := ns } else r) =
        id r := by
    intro r hr
    by_cases hpk : r.pk == pk
    · rw [if_pos hpk]
      obtain ⟨ha, hb⟩ := h2 r hr hpk
      cases r
      simp_all
    · rw [if_neg hpk]
      rfl
  rw [List.map_congr_left hcongr, List.map_id]

theorem cursorUpsert_idem (cs : List CursorRow) (pk nid : String) (ns : Option String) :
    cursorUpsert (cursorUpsert cs pk nid ns) pk nid ns = cursorUpsert cs pk nid ns :=
  cursorUpsert_stable _ pk nid ns (cursorUpsert_any cs pk nid ns)
    (cursorUpsert_rows cs pk nid ns)

theorem ingestLoop_cons_skip {m : MatchPayload} (n t rg : String) (lk : Option String)
    (rest : List MatchPayload) (db : Db) (i : Nat)
    (hm : matchIdOf m = none ∨ matchIdOf m = some "") :
    ingestLoop n t rg lk (m :: rest) db i = ingestLoop n t rg lk rest db i := by
  rcases hm with hm | hm <;> simp only [ingestLoop, hm, if_true]

theorem ingestLoop_cons_stop {m : MatchPayload} {mid : String} (n t rg : String)
    (lk : Option String) (rest : List MatchPayload) (db : Db) (i : Nat)
    (hm : matchIdOf m = some mid) (hmid : mid ≠ "") (hbr : breakCond lk mid = true) :
    ingestLoop n t rg lk (m :: rest) db i = (db, i) := by
  simp only [ingestLoop, hm, if_neg hmid, hbr, if_true]

theorem ingestLoop_cons_process {m : MatchPayload} {mid : String} (n t rg : String)
    (lk : Option String) (rest : List MatchPayload) (db : Db) (i : Nat)
    (hm : matchIdOf m = some mid) (hmid : mid ≠ "") (hbr : breakCond lk mid = false) :
    ingestLoop n t rg lk (m :: rest) db i =
      ingestLoop n t rg lk rest
        { valorant_matches :=
            if db.valorant_matches.any (fun r => r.id == mid) then db.valorant_matches
            else db.valorant_matches ++ [toMatchRow n t rg m mid]
          valorant_player_stats :=
            statsUpsert db.valorant_player_stats (toStatsRow n t rg m mid)
          player_cursor := db.player_cursor }
        (if db.valorant_matches.any (fun r => r.id == mid) then i else i + 1) := by
  simp only [ingestLoop, hm, if_neg hmid, hbr, Bool.false_eq_true, if_false]
  split <;> rfl

theorem loopKeys_cons_skip {m : MatchPayload} (lk : Option String) (rest : List MatchPayload)
    (hm : matchIdOf m = none ∨ matchIdOf m = some "") :
    loopKeys lk (m :: rest) = loopKeys lk rest := by
  rcases hm with hm | hm <;> simp only [loopKeys, hm, if_true]

theorem loopKeys_cons_stop {m : MatchPayload} {mid : String} (lk : Option String)
    (rest : List MatchPayload) (hm : matchIdOf m = some mid) (hmid : mid ≠ "")
    (hbr : breakCond lk mid = true) :
    loopKeys lk (m :: rest) = [] := by
  simp only [loopKeys, hm, if_neg hmid, hbr, if_true]

theorem loopKeys_cons_process {m : MatchPayload} {mid : String} (lk : Option String)
    (rest : List MatchPayload) (hm : matchIdOf m = some mid) (hmid : mid ≠ "")
    (hbr : breakCond lk mid = false) :
    loopKeys lk (m :: rest) = mid :: loopKeys lk rest := by
  simp only [loopKeys, hm, if_neg hmid, hbr, Bool.false_eq_true, if_false]

theorem ingestLoop_player_cursor (n t rg : String) (lk : Option String) :
    ∀ (ms : List MatchPayload) (db : Db) (i : Nat),
      (ingestLoop n t rg lk ms db i).1.player_cursor = db.player_cursor := by
  intro ms
  induction ms with
  | nil => intro db i; rfl
  | cons m rest ih =>
    intro db i
    rcases hm : matchIdOf m with _ | mid
    · rw [ingestLoop_cons_skip n t rg lk rest db i (Or.inl hm)]; exact ih db i
    · by_cases hmid : mid = ""
      · subst hmid
        rw [ingestLoop_cons_skip n t rg lk rest db i (Or.inr hm)]; exact ih db i
      · cases hbr : breakCond lk mid
        · rw [ingestLoop_cons_process n t rg lk rest db i hm hmid hbr]
          rw [ih]
        · rw [ingestLoop_cons_stop n t rg lk rest db i hm hmid hbr]

theorem ingestLoop_any_id (n t rg : String) (lk : Option String) (k : String) :
    ∀ (ms : List MatchPayload) (db : Db) (i : Nat),
      ((ingestLoop n t rg lk ms db i).1.valorant_matches.any (fun r => r.id == k) = true) ↔
        (db.valorant_matches.any (fun r => r.id == k) = true ∨ k ∈ loopKeys lk ms) := by
  intro ms
  induction ms with
  | nil => intro db i; simp [ingestLoop, loopKeys]
  | cons m rest ih =>
    intro db i
    rcases hm : matchIdOf m with _ | mid
    · rw [ingestLoop_cons_skip n t rg lk rest db i (Or.inl hm),
        loopKeys_cons_skip lk rest (Or.inl hm)]
      exact ih db i
    · by_cases hmid : mid = ""
      · subst hmid
        rw [ingestLoop_cons_skip n t rg lk rest db i (Or.inr hm),
          loopKeys_cons_skip lk rest (Or.inr hm)]
        exact ih db i
      · cases hbr : breakCond lk mid
        · rw [ingestLoop_cons_process n t rg lk rest db i hm hmid hbr,
            loopKeys_cons_process lk rest hm hmid hbr]
          rw [ih]
          by_cases hal : db.valorant_matches.any (fun r => r.id == mid) = true
          · rw [if_pos hal]
            constructor
            · rintro (h | h)
              · exact Or.inl h
              · exact Or.inr (List.mem_cons_of_mem _ h)
            · rintro (h | h)
              · exact Or.inl h
              · rcases List.mem_cons.mp h with h | h
                · subst h

                  exact Or.inl hal
                · exact Or.inr h
          · rw [if_neg hal]
            rw [List.any_append]
            simp only [List.any_cons, List.any_nil, Bool.or_false]
            have hrow : (toMatchRow n t rg m mid).id = mid := rfl
            rw [hrow]
            constructor
            · rintro (h | h)
              · rw [Bool.or_eq_true] at h
                rcases h with h | h
                · exact Or.inl h
                · rw [beq_iff_eq] at h
                  subst h
                  exact Or.inr (List.mem_cons_self _ _)
              · exact Or.inr (List.mem_cons_of_mem _ h)
            · rintro (h | h)
              · exact Or.inl (by rw [Bool.or_eq_true]; exact Or.inl h)
              · rcases List.mem_cons.mp h with h | h
                · subst h
                  exact Or.inl (by rw [Bool.or_eq_true, beq_iff_eq]; exact Or.inr rfl)
                · exact Or.inr h
        · rw [ingestLoop_cons_stop n t rg lk rest db i hm hmid hbr,
            loopKeys_cons_stop lk rest hm hmid hbr]
          simp

theorem ingestLoop_nop (n t rg : String) (lk : Option String) :
    ∀ (ms : List MatchPayload) (db : Db) (i : Nat),
      (∀ k ∈ loopKeys lk ms, db.valorant_matches.any (fun r => r.id == k) = true) →
      (ingestLoop n t rg lk ms db i).1.valorant_matches = db.valorant_matches ∧
        (ingestLoop n t rg lk ms db i).2 = i := by
  intro ms
  induction ms with
  | nil => intro db i _; exact ⟨rfl, rfl⟩
  | cons m rest ih =>
    intro db i hpres
    rcases hm : matchIdOf m with _ | mid
    · rw [ingestLoop_cons_skip n t rg lk rest db i (Or.inl hm)]
      exact ih db i (by rw [loopKeys_cons_skip lk rest (Or.inl hm)] at hpres; exact hpres)
    · by_cases hmid : mid = ""
      · subst hmid
        rw [ingestLoop_cons_skip n t rg lk rest db i (Or.inr hm)]
        exact ih db i (by rw [loopKeys_cons_skip lk rest (Or.inr hm)] at hpres; exact hpres)
      · cases hbr : breakCond lk mid
        · rw [ingestLoop_cons_process n t rg lk rest db i hm hmid hbr]
          rw [loopKeys_cons_process lk rest hm hmid hbr] at hpres
          have hal : db.valorant_matches.any (fun r => r.id == mid) = true :=
            hpres mid (List.mem_cons_self _ _)
          rw [if_pos hal, if_pos hal]
          exact ih _ i (fun k hk => hpres k (List.mem_cons_of_mem _ hk))
        · rw [ingestLoop_cons_stop n t rg lk rest db i hm hmid hbr]
          exact ⟨rfl, rfl⟩

theorem ingestLoop_matches_append (n t rg : String) (lk : Option String) :
    ∀ (ms : List MatchPayload) (db : Db) (i : Nat),
      ∃ tl, (ingestLoop n t rg lk ms db i).1.valorant_matches = db.valorant_matches ++ tl ∧
        ∀ r ∈ tl, r.name = n ∧ r.tag = t ∧ r.region = rg := by
  intro ms
  induction ms with
  | nil =>
    intro db i
    exact ⟨[], by simp [ingestLoop], by simp⟩
  | cons m rest ih =>
    intro db i
    rcases hm : matchIdOf m with _ | mid
    · rw [ingestLoop_cons_skip n t rg lk rest db i (Or.inl hm)]; exact ih db i
    · by_cases hmid : mid = ""
      · subst hmid
        rw [ingestLoop_cons_skip n t rg lk rest db i (Or.inr hm)]; exact ih db i
      · cases hbr : breakCond lk mid
        · rw [ingestLoop_cons_process n t rg lk rest db i hm hmid hbr]
          by_cases hal : db.valorant_matches.any (fun r => r.id == mid) = true
          · rw [if_pos hal, if_pos hal]
            exact ih _ i
          · rw [if_neg hal, if_neg hal]
            obtain ⟨tl, htl, hprop⟩ := ih
              { valorant_matches := db.valorant_matches ++ [toMatchRow n t rg m mid]
                valorant_player_stats :=
                  statsUpsert db.valorant_player_stats (toStatsRow n t rg m mid)
                player_cursor := db.player_cursor } (i + 1)
            refine ⟨toMatchRow n t rg m mid :: tl, ?_, ?_⟩
            · rw [htl]
              simp
            · intro r hr
              rcases List.mem_cons.mp hr with hr | hr
              · subst hr
                exact ⟨rfl, rfl, rfl⟩
              · exact hprop r hr
        · rw [ingestLoop_cons_stop n t rg lk rest db i hm hmid hbr]
          exact ⟨[], by simp, by simp⟩

theorem ingestLoop_stats_preserved (n t rg : String) (lk : Option String) :
    ∀ (ms : List MatchPayload) (db : Db) (i : Nat) (s : StatsRow),
      s ∈ db.valorant_player_stats → s.match_id ∉ loopKeys lk ms →
      s ∈ (ingestLoop n t rg lk ms db i).1.valorant_player_stats := by
  intro ms
  induction ms with
  | nil => intro db i s hs _; exact hs
  | cons m rest ih =>
    intro db i s hs hnk
    rcases hm : matchIdOf m with _ | mid
    · rw [ingestLoop_cons_skip n t rg lk rest db i (Or.inl hm)]
      rw [loopKeys_cons_skip lk rest (Or.inl hm)] at hnk
      exact ih db i s hs hnk
    · by_cases hmid : mid = ""
      · subst hmid
        rw [ingestLoop_cons_skip n t rg lk rest db i (Or.inr hm)]
        rw [loopKeys_cons_skip lk rest (Or.inr hm)] at hnk
        exact ih db i s hs hnk
      · cases hbr : breakCond lk mid
        · rw [ingestLoop_cons_process n t rg lk rest db i hm hmid hbr]
          rw [loopKeys_cons_process lk rest hm hmid hbr] at hnk
          have hne : s.match_id ≠ mid := fun h => hnk (h ▸ List.mem_cons_self _ _)
          have hnk' : s.match_id ∉ loopKeys lk rest := fun h => hnk (List.mem_cons_of_mem _ h)
          apply ih _ _ s _ hnk'
          show s ∈ statsUpsert db.valorant_player_stats (toStatsRow n t rg m mid)
          unfold statsUpsert
          apply List.mem_append_left
          rw [List.mem_filter]
          refine ⟨hs, ?_⟩
          have hrow : (toStatsRow n t rg m mid).match_id = mid := rfl
          rw [hrow]
          simpa using hne
        · rw [ingestLoop_cons_stop n t rg lk rest db i hm hmid hbr]
          exact hs

theorem breakCond_elim {lk : Option String} {L : String} (hbr : breakCond lk L = true) :
    lk = some L ∧ L ≠ "" := by
  unfold breakCond at hbr
  match lk with
  | none => exact absurd hbr Bool.false_ne_true
  | some l =>
    rw [Bool.and_eq_true, bne_iff_ne, beq_iff_eq] at hbr
    obtain ⟨hne, heq⟩ := hbr
    subst heq
    exact ⟨rfl, hne⟩

theorem ingestLoop_break (n t rg : String) (lk : Option String) (L : String)
    (M : MatchPayload) (hM : matchIdOf M = some L) (hbr : breakCond lk L = true) :
    ∀ (pre post : List MatchPayload) (db : Db) (i : Nat),
      (∀ m ∈ pre, matchIdOf m ≠ some L) →
      ingestLoop n t rg lk (pre ++ M :: post) db i = ingestLoop n t rg lk pre db i := by
  obtain ⟨hlk, hL⟩ := breakCond_elim hbr
  intro pre
  induction pre with
  | nil =>
    intro post db i _
    rw [List.nil_append]
    rw [ingestLoop_cons_stop n t rg lk post db i hM hL hbr]
    rfl
  | cons m pre' ih =>
    intro post db i hpre
    rw [List.cons_append]
    rcases hm : matchIdOf m with _ | mid
    · rw [ingestLoop_cons_skip n t rg lk (pre' ++ M :: post) db i (Or.inl hm),
        ingestLoop_cons_skip n t rg lk pre' db i (Or.inl hm)]
      exact ih post db i (fun x hx => hpre x (List.mem_cons_of_mem _ hx))
    · by_cases hmid : mid = ""
      · subst hmid
        rw [ingestLoop_cons_skip n t rg lk (pre' ++ M :: post) db i (Or.inr hm),
          ingestLoop_cons_skip n t rg lk pre' db i (Or.inr hm)]
        exact ih post db i (fun x hx => hpre x (List.mem_cons_of_mem _ hx))
      · have hbrm : breakCond lk mid = false := by
          subst hlk
          unfold breakCond
          rw [Bool.and_eq_false_iff]
          right
          rw [beq_eq_false_iff_ne]
          intro h
          exact hpre m (List.mem_cons_self _ _) (by rw [hm, h])
        rw [ingestLoop_cons_process n t rg lk (pre' ++ M :: post) db i hm hmid hbrm,
          ingestLoop_cons_process n t rg lk pre' db i hm hmid hbrm]
        exact ih post _ _ (fun x hx => hpre x (List.mem_cons_of_mem _ hx))

theorem loopKeys_break (lk : Option String) (L : String)
    (M : MatchPayload) (hM : matchIdOf M = some L) (hbr : breakCond lk L = true) :
    ∀ (pre post : List MatchPayload),
      (∀ m ∈ pre, matchIdOf m ≠ some L) →
      loopKeys lk (pre ++ M :: post) = loopKeys lk pre := by
  obtain ⟨hlk, hL⟩ := breakCond_elim hbr
  intro pre
  induction pre with
  | nil =>
    intro post _
    rw [List.nil_append, loopKeys_cons_stop lk post hM hL hbr]
    rfl
  | cons m pre' ih =>
    intro post hpre
    rw [List.cons_append]
    rcases hm : matchIdOf m with _ | mid
    · rw [loopKeys_cons_skip lk (pre' ++ M :: post) (Or.inl hm),
        loopKeys_cons_skip lk pre' (Or.inl hm)]
      exact ih post (fun x hx => hpre x (List.mem_cons_of_mem _ hx))
    · by_cases hmid : mid = ""
      · subst hmid
        rw [loopKeys_cons_skip lk (pre' ++ M :: post) (Or.inr hm),
          loopKeys_cons_skip lk pre' (Or.inr hm)]
        exact ih post (fun x hx => hpre x (List.mem_cons_of_mem _ hx))
      · have hbrm : breakCond lk mid = false := by
          subst hlk
          unfold breakCond
          rw [Bool.and_eq_false_iff]
          right
          rw [beq_eq_false_iff_ne]
          intro h
          exact hpre m (List.mem_cons_self _ _) (by rw [hm, h])
        rw [loopKeys_cons_process lk (pre' ++ M :: post) hm hmid hbrm,
          loopKeys_cons_process lk pre' hm hmid hbrm, ih post
            (fun x hx => hpre x (List.mem_cons_of_mem _ hx))]

theorem ingestLoop_fresh (n t rg : String) (lk : Option String) :
    ∀ (ms : List MatchPayload) (db : Db) (i : Nat),
      (∀ m ∈ ms, matchIdOf m = some (midOfD m) ∧ midOfD m ≠ "" ∧
        breakCond lk (midOfD m) = false) →
      (ms.map midOfD).Nodup →
      (∀ m ∈ ms, db.valorant_matches.any (fun r => r.id == midOfD m) = false) →
      (ingestLoop n t rg lk ms db i).1.valorant_matches =
        db.valorant_matches ++ ms.map (fun m => toMatchRow n t rg m (midOfD m)) ∧
      (ingestLoop n t rg lk ms db i).2 = i + ms.length := by
  intro ms
  induction ms with
  | nil => intro db i _ _ _; exact ⟨by simp [ingestLoop], rfl⟩
  | cons m rest ih =>
    intro db i hvalid hnd hfresh
    obtain ⟨hm, hmid, hbr⟩ := hvalid m (List.mem_cons_self _ _)
    have hal : db.valorant_matches.any (fun r => r.id == midOfD m) = false :=
      hfresh m (List.mem_cons_self _ _)
    rw [ingestLoop_cons_process n t rg lk rest db i hm hmid hbr]
    rw [if_neg (by rw [hal]; exact Bool.false_ne_true),
      if_neg (by rw [hal]; exact Bool.false_ne_true)]
    rw [List.map_cons, List.nodup_cons] at hnd
    obtain ⟨hnotin, hnd'⟩ := hnd
    have hstep := ih
      { valorant_matches := db.valorant_matches ++ [toMatchRow n t rg m (midOfD m)]
        valorant_player_stats :=
          statsUpsert db.valorant_player_stats (toStatsRow n t rg m (midOfD m))
        player_cursor := db.player_cursor } (i + 1)
      (fun x hx => hvalid x (List.mem_cons_of_mem _ hx)) hnd'
      (by
        intro x hx
        show (db.valorant_matches ++ [toMatchRow n t rg m (midOfD m)]).any
          (fun r => r.id == midOfD x) = false
        rw [List.any_append]
        rw [Bool.or_eq_false_iff]
        refine ⟨hfresh x (List.mem_cons_of_mem _ hx), ?_⟩
        simp only [List.any_cons, List.any_nil, Bool.or_false]
        have hrow : (toMatchRow n t rg m (midOfD m)).id = midOfD m := rfl
        rw [hrow, beq_eq_false_iff_ne]
        intro hcontra
        exact hnotin (hcontra ▸ List.mem_map_of_mem midOfD hx))
    refine ⟨?_, ?_⟩
    · rw [hstep.1]
      simp
    · rw [hstep.2]
      simp only [List.length_cons]
      omega

theorem mainSync_not_ok (src : Src) (n t rg : String) (ag : AgentFull)
    (hok : (fetchLatestCompetitive src n t rg).ok = false) :
    mainSync src n t rg ag =
      (.upstreamError (fetchLatestCompetitive src n t rg).status, ag) := by
  unfold mainSync
  rw [if_neg (by rw [hok]; exact Bool.false_ne_true)]

theorem mainSync_ok (src : Src) (n t rg : String) (ag : AgentFull)
    (hok : (fetchLatestCompetitive src n t rg).ok = true) :
    mainSync src n t rg ag =
      (.refreshed n t rg
        (ingestLoop n t rg (cursorLookup ag.db.player_cursor (pkOf n t rg))
          (fetchLatestCompetitive src n t rg).data ag.db 0).2,
       { ag with db := syncDb n t rg ag.db (fetchLatestCompetitive src n t rg).data }) := by
  unfold mainSync syncDb
  rw [if_pos hok]
  rcases hh : (fetchLatestCompetitive src n t rg).data.head? with _ | m0 <;>
    simp only [hh]

theorem syncDb_cons_falsy {m0 : MatchPayload} (n t rg : String) (rest : List MatchPayload)
    (db : Db) (hm : matchIdOf m0 = none ∨ matchIdOf m0 = some "") :
    syncDb n t rg db (m0 :: rest) =
      (ingestLoop n t rg (cursorLookup db.player_cursor (pkOf n t rg)) (m0 :: rest) db 0).1 := by
  rcases hm with hm | hm
  · unfold syncDb
    simp only [List.head?_cons, hm]
  · unfold syncDb
    simp only [List.head?_cons, hm]
    rfl

theorem syncDb_cons_adv {m0 : MatchPayload} {nid : String} (n t rg : String)
    (rest : List MatchPayload) (db : Db) (hm : matchIdOf m0 = some nid) (hnid : nid ≠ "") :
    syncDb n t rg db (m0 :: rest) =
      { valorant_matches :=
          (ingestLoop n t rg (cursorLookup db.player_cursor (pkOf n t rg))
            (m0 :: rest) db 0).1.valorant_matches
        valorant_player_stats :=
          (ingestLoop n t rg (cursorLookup db.player_cursor (pkOf n t rg))
            (m0 :: rest) db 0).1.valorant_player_stats
        player_cursor :=
          cursorUpsert
            ((ingestLoop n t rg (cursorLookup db.player_cursor (pkOf n t rg))
              (m0 :: rest) db 0).1.player_cursor)
            (pkOf n t rg) nid (startedOf m0.metadata) } := by
  unfold syncDb
  simp only [List.head?_cons, hm, if_neg hnid]

theorem syncDb_second (n t rg : String) (ms : List MatchPayload) (db : Db) :
    (ingestLoop n t rg
        (cursorLookup (syncDb n t rg db ms).player_cursor (pkOf n t rg)) ms
        (syncDb n t rg db ms) 0).2 = 0 ∧
    (syncDb n t rg (syncDb n t rg db ms) ms).valorant_matches =
      (syncDb n t rg db ms).valorant_matches ∧
    (syncDb n t rg (syncDb n t rg db ms) ms).player_cursor =
      (syncDb n t rg db ms).player_cursor := by
  rcases ms with _ | ⟨m0, rest⟩
  · exact ⟨rfl, rfl, rfl⟩
  · have hkeys : ∀ k ∈ loopKeys (cursorLookup db.player_cursor (pkOf n t rg)) (m0 :: rest),
        ((ingestLoop n t rg (cursorLookup db.player_cursor (pkOf n t rg))
          (m0 :: rest) db 0).1.valorant_matches.any (fun r => r.id == k)) = true := by
      intro k hk
      exact (ingestLoop_any_id n t rg
        (cursorLookup db.player_cursor (pkOf n t rg)) k (m0 :: rest) db 0).mpr (Or.inr hk)
    rcases hm : matchIdOf m0 with _ | nid
    · -- falsy newest id: no cursor advance, second pass is a no-op walk
      have hfd := syncDb_cons_falsy n t rg rest db (Or.inl hm)
      have hpc := ingestLoop_player_cursor n t rg
        (cursorLookup db.player_cursor (pkOf n t rg)) (m0 :: rest) db 0
      refine ⟨?_, ?_, ?_⟩
      · rw [hfd, hpc]
        exact (ingestLoop_nop n t rg _ (m0 :: rest) _ 0 hkeys).2
      · rw [hfd, syncDb_cons_falsy n t rg rest _ (Or.inl hm), hpc]
        exact (ingestLoop_nop n t rg _ (m0 :: rest) _ 0 hkeys).1
      · rw [hfd, syncDb_cons_falsy n t rg rest _ (Or.inl hm)]
        exact ingestLoop_player_cursor n t rg _ (m0 :: rest) _ 0
    · by_cases hnid : nid = ""
      · subst hnid
        have hfd := syncDb_cons_falsy n t rg rest db (Or.inr hm)
        have hpc := ingestLoop_player_cursor n t rg
          (cursorLookup db.player_cursor (pkOf n t rg)) (m0 :: rest) db 0
        refine ⟨?_, ?_, ?_⟩
        · rw [hfd, hpc]
          exact (ingestLoop_nop n t rg _ (m0 :: rest) _ 0 hkeys).2
        · rw [hfd, syncDb_cons_falsy n t rg rest _ (Or.inr hm), hpc]
          exact (ingestLoop_nop n t rg _ (m0 :: rest) _ 0 hkeys).1
        · rw [hfd, syncDb_cons_falsy n t rg rest _ (Or.inr hm)]
          exact ingestLoop_player_cursor n t rg _ (m0 :: rest) _ 0
      · -- cursor advanced to the newest id: the second walk stops at once
        have hadv := syncDb_cons_adv n t rg rest db hm hnid
        have hbr2 : breakCond (some nid) nid = true := by
          unfold breakCond
          rw [Bool.and_eq_true, bne_iff_ne, beq_iff_eq]
          exact ⟨hnid, rfl⟩
        refine ⟨?_, ?_, ?_⟩
        · rw [hadv]
          dsimp only
          rw [cursorLookup_upsert_self]
          rw [ingestLoop_cons_stop n t rg (some nid) rest _ 0 hm hnid hbr2]
        · rw [hadv, syncDb_cons_adv n t rg rest _ hm hnid]
          dsimp only
          rw [cursorLookup_upsert_self]
          rw [ingestLoop_cons_stop n t rg (some nid) rest _ 0 hm hnid hbr2]
        · rw [hadv, syncDb_cons_adv n t rg rest _ hm hnid]
          dsimp only
          rw [cursorLookup_upsert_self]
          rw [ingestLoop_cons_stop n t rg (some nid) rest _ 0 hm hnid hbr2]
          dsimp only
          exact cursorUpsert_idem _ (pkOf n t rg) nid (startedOf m0.metadata)

theorem mainSync_activePlayer (src : Src) (n t rg : String) (ag : AgentFull) :
    (mainSync src n t rg ag).2.activePlayer = ag.activePlayer := by
  cases hok : (fetchLatestCompetitive src n t rg).ok
  · rw [mainSync_not_ok src n t rg ag hok]
  · rw [mainSync_ok src n t rg ag hok]

theorem mainSync_second (src : Src) (n t rg : String) (ag : AgentFull) :
    ((mainSync src n t rg (mainSync src n t rg ag).2).1).insertedCount = 0 ∧
    (mainSync src n t rg (mainSync src n t rg ag).2).2.db.valorant_matches =
      (mainSync src n t rg ag).2.db.valorant_matches ∧
    (mainSync src n t rg (mainSync src n t rg ag).2).2.db.player_cursor =
      (mainSync src n t rg ag).2.db.player_cursor := by
  cases hok : (fetchLatestCompetitive src n t rg).ok
  · rw [mainSync_not_ok src n t rg ag hok]
    dsimp only
    rw [mainSync_not_ok src n t rg ag hok]
    exact ⟨rfl, rfl, rfl⟩
  · have h1 := mainSync_ok src n t rg ag hok
    rw [h1]
    dsimp only
    rw [mainSync_ok src n t rg
      { ag with db := syncDb n t rg ag.db (fetchLatestCompetitive src n t rg).data } hok]
    dsimp only
    have hs := syncDb_second n t rg (fetchLatestCompetitive src n t rg).data ag.db
    exact ⟨hs.1, hs.2.1, hs.2.2⟩

theorem ingest_noActive_left (src : Src) (ag : AgentFull) (hA : ag.activePlayer = none) :
    ingestOrRefreshMatches src ag = (.noActivePlayer, ag) := by
  simp only [ingestOrRefreshMatches, hA]

theorem ingest_guard_left (src : Src) (ag : AgentFull) (active : ActivePlayer)
    (hA : ag.activePlayer = some active) (hg : active.name = "" ∨ active.tag = "") :
    ingestOrRefreshMatches src ag = (.noActivePlayer, ag) := by
  simp only [ingestOrRefreshMatches, hA]
  rcases hg with hg | hg <;> simp [hg]

theorem ingest_preset (src : Src) (ag : AgentFull) (active : ActivePlayer) (rg : String)
    (hA : ag.activePlayer = some active) (hn : active.name ≠ "") (ht : active.tag ≠ "")
    (hr : active.region = some rg) :
    ingestOrRefreshMatches src ag = mainSync src active.name active.tag rg ag := by
  simp only [ingestOrRefreshMatches, hA]
  rw [if_neg (by simp [hn, ht])]
  simp only [hr]

theorem ingest_probe_fail (src : Src) (ag : AgentFull) (active : ActivePlayer)
    (hA : ag.activePlayer = some active) (hn : active.name ≠ "") (ht : active.tag ≠ "")
    (hr : active.region = none)
    (hp : probeRegions src active.name active.tag REGIONS = none) :
    ingestOrRefreshMatches src ag = (.regionUnresolved, ag) := by
  simp only [ingestOrRefreshMatches, hA]
  rw [if_neg (by simp [hn, ht])]
  simp only [hr, hp]

theorem ingest_probe_ok (src : Src) (ag : AgentFull) (active : ActivePlayer) (rg : String)
    (hA : ag.activePlayer = some active) (hn : active.name ≠ "") (ht : active.tag ≠ "")
    (hr : active.region = none)
    (hp : probeRegions src active.name active.tag REGIONS = some rg) :
    ingestOrRefreshMatches src ag =
      mainSync src active.name active.tag rg
        { ag with activePlayer := some { active with region := some rg } } := by
  simp only [ingestOrRefreshMatches, hA]
  rw [if_neg (by simp [hn, ht])]
  simp only [hr, hp]

theorem ingest_second (src : Src) (ag : AgentFull) :
    ((ingestOrRefreshMatches src (ingestOrRefreshMatches src ag).2).1).insertedCount = 0 ∧
    (ingestOrRefreshMatches src (ingestOrRefreshMatches src ag).2).2.db.valorant_matches =
      (ingestOrRefreshMatches src ag).2.db.valorant_matches ∧
    (ingestOrRefreshMatches src (ingestOrRefreshMatches src ag).2).2.db.player_cursor =
      (ingestOrRefreshMatches src ag).2.db.player_cursor := by
  rcases hA : ag.activePlayer with _ | active
  · rw [ingest_noActive_left src ag hA]
    dsimp only
    rw [ingest_noActive_left src ag hA]
    exact ⟨rfl, rfl, rfl⟩
  · by_cases hn : active.name = ""
    · rw [ingest_guard_left src ag active hA (Or.inl hn)]
      dsimp only
      rw [ingest_guard_left src ag active hA (Or.inl hn)]
      exact ⟨rfl, rfl, rfl⟩
    · by_cases ht : active.tag = ""
      · rw [ingest_guard_left src ag active hA (Or.inr ht)]
        dsimp only
        rw [ingest_guard_left src ag active hA (Or.inr ht)]
        exact ⟨rfl, rfl, rfl⟩
      · rcases hr : active.region with _ | rg
        · rcases hp : probeRegions src active.name active.tag REGIONS with _ | rg
          · rw [ingest_probe_fail src ag active hA hn ht hr hp]
            dsimp only
            rw [ingest_probe_fail src ag active hA hn ht hr hp]
            exact ⟨rfl, rfl, rfl⟩
          · rw [ingest_probe_ok src ag active rg hA hn ht hr hp]
            have hA1 : (mainSync src active.name active.tag rg
                { ag with activePlayer := some { active with region := some rg } }).2.activePlayer =
                some { active with region := some rg } :=
              mainSync_activePlayer src active.name active.tag rg _
            rw [ingest_preset src _ { active with region := some rg } rg hA1 hn ht rfl]
            exact mainSync_second src active.name active.tag rg _
        · rw [ingest_preset src ag active rg hA hn ht hr]
          have hA1 : (mainSync src active.name active.tag rg ag).2.activePlayer = some active :=
            hA ▸ mainSync_activePlayer src active.name active.tag rg ag
          rw [ingest_preset src _ active rg hA1 hn ht hr]
          exact mainSync_second src active.name active.tag rg ag

theorem fetch_congr (src src' : Src) (n t rg : String)
    (h : src rg n t = src' rg n t) :
    fetchLatestCompetitive src n t rg = fetchLatestCompetitive src' n t rg := by
  unfold fetchLatestCompetitive
  rw [h]

theorem mainSync_congr (src src' : Src) (n t rg : String) (ag : AgentFull)
    (h : src rg n t = src' rg n t) :
    mainSync src n t rg ag = mainSync src' n t rg ag := by
  unfold mainSync
  rw [fetch_congr src src' n t rg h]

/-- Success of a single region probe: an ok response with data. -/
def probeHit (src : Src) (n t rg : String) : Prop :=
  (fetchLatestCompetitive src n t rg).ok = true ∧
    0 < (fetchLatestCompetitive src n t rg).data.length

instance (src : Src) (n t rg : String) : Decidable (probeHit src n t rg) := by
  unfold probeHit
  infer_instance

theorem probeRegions_cons (src : Src) (n t : String) (r : String) (rest : List String) :
    probeRegions src n t (r :: rest) =
      if probeHit src n t r then some r else probeRegions src n t rest := by
  simp only [probeRegions]
  by_cases h : probeHit src n t r
  · rw [if_pos h]
    obtain ⟨h1, h2⟩ := h
    rw [if_pos (by rw [h1, decide_eq_true h2]; rfl)]
  · rw [if_neg h]
    rw [if_neg (fun hcontra => by
      rw [Bool.and_eq_true, decide_eq_true_eq] at hcontra
      exact h hcontra)]

theorem probeRegions_some (src : Src) (n t : String) :
    ∀ (l : List String) (r : String), probeRegions src n t l = some r →
      probeHit src n t r ∧
      ∃ preR postR, l = preR ++ r :: postR ∧ ∀ x ∈ preR, ¬ probeHit src n t x := by
  intro l
  induction l with
  | nil => intro r h; exact absurd h (by simp [probeRegions])
  | cons r0 rest ih =>
    intro r h
    rw [probeRegions_cons] at h
    by_cases h0 : probeHit src n t r0
    · rw [if_pos h0] at h
      injection h with h
      subst h
      exact ⟨h0, [], rest, rfl, by simp⟩
    · rw [if_neg h0] at h
      obtain ⟨hhit, preR, postR, hsplit, hpre⟩ := ih r h
      refine ⟨hhit, r0 :: preR, postR, by rw [hsplit]; rfl, ?_⟩
      intro x hx
      rcases List.mem_cons.mp hx with hx | hx
      · subst hx; exact h0
      · exact hpre x hx

theorem probeRegions_none_of (src : Src) (n t : String) :
    ∀ (l : List String), (∀ x ∈ l, ¬ probeHit src n t x) → probeRegions src n t l = none := by
  intro l
  induction l with
  | nil => intro _; rfl
  | cons r0 rest ih =>
    intro h
    rw [probeRegions_cons, if_neg (h r0 (List.mem_cons_self _ _))]
    exact ih (fun x hx => h x (List.mem_cons_of_mem _ hx))

theorem probeRegions_first (src : Src) (n t : String) :
    ∀ (preR : List String) (r : String) (postR : List String),
      (∀ x ∈ preR, ¬ probeHit src n t x) → probeHit src n t r →
      probeRegions src n t (preR ++ r :: postR) = some r := by
  intro preR
  induction preR with
  | nil =>
    intro r postR _ hr
    rw [List.nil_append, probeRegions_cons, if_pos hr]
  | cons x xs ih =>
    intro r postR hpre hr
    rw [List.cons_append, probeRegions_cons,
      if_neg (hpre x (List.mem_cons_self _ _))]
    exact ih r postR (fun y hy => hpre y (List.mem_cons_of_mem _ hy)) hr

theorem syncDb_matches (n t rg : String) (db : Db) (ms : List MatchPayload) :
    (syncDb n t rg db ms).valorant_matches =
      (ingestLoop n t rg (cursorLookup db.player_cursor (pkOf n t rg))
        ms db 0).1.valorant_matches := by
  rcases ms with _ | ⟨m0, rest⟩
  · rfl
  · rcases hm : matchIdOf m0 with _ | nid
    · rw [syncDb_cons_falsy n t rg rest db (Or.inl hm)]
    · by_cases hnid : nid = ""
      · subst hnid
        rw [syncDb_cons_falsy n t rg rest db (Or.inr hm)]
      · rw [syncDb_cons_adv n t rg rest db hm hnid]

theorem syncDb_stats (n t rg : String) (db : Db) (ms : List MatchPayload) :
    (syncDb n t rg db ms).valorant_player_stats =
      (ingestLoop n t rg (cursorLookup db.player_cursor (pkOf n t rg))
        ms db 0).1.valorant_player_stats := by
  rcases ms with _ | ⟨m0, rest⟩
  · rfl
  · rcases hm : matchIdOf m0 with _ | nid
    · rw [syncDb_cons_falsy n t rg rest db (Or.inl hm)]
    · by_cases hnid : nid = ""
      · subst hnid
        rw [syncDb_cons_falsy n t rg rest db (Or.inr hm)]
      · rw [syncDb_cons_adv n t rg rest db hm hnid]

theorem loopKeys_sub (lk : Option String) :
    ∀ (ms : List MatchPayload) (k : String), k ∈ loopKeys lk ms →
      ∃ m ∈ ms, matchIdOf m = some k := by
  intro ms
  induction ms with
  | nil => intro k h; exact absurd h (by simp [loopKeys])
  | cons m rest ih =>
    intro k h
    rcases hm : matchIdOf m with _ | mid
    · rw [loopKeys_cons_skip lk rest (Or.inl hm)] at h
      obtain ⟨x, hx, hxid⟩ := ih k h
      exact ⟨x, List.mem_cons_of_mem _ hx, hxid⟩
    · by_cases hmid : mid = ""
      · subst hmid
        rw [loopKeys_cons_skip lk rest (Or.inr hm)] at h
        obtain ⟨x, hx, hxid⟩ := ih k h
        exact ⟨x, List.mem_cons_of_mem _ hx, hxid⟩
      · cases hbr : breakCond lk mid
        · rw [loopKeys_cons_process lk rest hm hmid hbr] at h
          rcases List.mem_cons.mp h with h | h
          · subst h
            exact ⟨m, List.mem_cons_self _ _, hm⟩
          · obtain ⟨x, hx, hxid⟩ := ih k h
            exact ⟨x, List.mem_cons_of_mem _ hx, hxid⟩
        · rw [loopKeys_cons_stop lk rest hm hmid hbr] at h
          exact absurd h (List.not_mem_nil k)

theorem kdrSelect_names (db : Db) (n t : String) (mapFilter : Option String) (lastN : Nat) :
    ∀ r ∈ kdrSelect db n t mapFilter lastN, r.name = n ∧ r.tag = t := by
  intro r hr
  unfold kdrSelect at hr
  have hr2 := mem_sortDescBy.mp (List.take_subset lastN _ hr)
  rw [List.mem_filter] at hr2
  obtain ⟨_, hpred⟩ := hr2
  rw [Bool.and_eq_true, Bool.and_eq_true] at hpred
  obtain ⟨⟨h1, h2⟩, _⟩ := hpred
  rw [beq_iff_eq] at h1 h2
  exact ⟨h1, h2⟩

theorem summarySelect_names (db : Db) (n t : String) (mapFilter : Option String)
    (lastN : Nat) :
    ∀ r ∈ summarySelect db n t mapFilter lastN, r.name = n ∧ r.tag = t := by
  intro r hr
  unfold summarySelect at hr
  rw [List.mem_map] at hr
  obtain ⟨pm, hpm, hproj⟩ := hr
  have hpm2 := mem_sortDescBy.mp (List.take_subset lastN _ hpm)
  rw [List.mem_filter] at hpm2
  obtain ⟨_, hpred⟩ := hpm2
  rw [Bool.and_eq_true, Bool.and_eq_true] at hpred
  obtain ⟨⟨h1, h2⟩, _⟩ := hpred
  rw [beq_iff_eq] at h1 h2
  subst hproj
  exact ⟨h1, h2⟩

theorem listRecentSelect_names (db : Db) (n t : String) (limit : Nat) :
    ∀ r ∈ listRecentSelect db n t limit, r.name = n ∧ r.tag = t := by
  intro r hr
  unfold listRecentSelect at hr
  have hr2 := mem_sortDescBy.mp (List.take_subset limit _ hr)
  rw [List.mem_filter] at hr2
  obtain ⟨_, hpred⟩ := hr2
  rw [Bool.and_eq_true] at hpred
  obtain ⟨h1, h2⟩ := hpred
  rw [beq_iff_eq] at h1 h2
  exact ⟨h1, h2⟩

theorem kdrSelect_of_matches_eq (db db' : Db) (n t : String) (mapFilter : Option String)
    (lastN : Nat) (h : db'.valorant_matches = db.valorant_matches) :
    kdrSelect db' n t mapFilter lastN = kdrSelect db n t mapFilter lastN := by
  unfold kdrSelect
  rw [h]

theorem kdrSelect_append_other (db : Db) (tl : List MatchRow) (n t : String)
    (mapFilter : Option String) (lastN : Nat)
    (db' : Db) (hdb : db'.valorant_matches = db.valorant_matches ++ tl)
    (htl : ∀ r ∈ tl, ¬(r.name = n ∧ r.tag = t)) :
    kdrSelect db' n t mapFilter lastN = kdrSelect db n t mapFilter lastN := by
  unfold kdrSelect
  rw [hdb, List.filter_append]
  have hnil : tl.filter (fun r =>
      r.name == n && r.tag == t &&
      (match mapFilter with
       | some mp => r.map == some mp
       | none => true)) = [] := by
    rw [List.filter_eq_nil_iff]
    intro r hr
    intro hcontra
    rw [Bool.and_eq_true, Bool.and_eq_true] at hcontra
    obtain ⟨⟨h1, h2⟩, _⟩ := hcontra
    rw [beq_iff_eq] at h1 h2
    exact htl r hr ⟨h1, h2⟩
  rw [hnil, List.append_nil]

theorem toFixed2_zero : toFixed2 0 = 0 := by
  unfold toFixed2
  norm_num

theorem isEmpty_false_of_ne_nil {l : List α} (h : l ≠ []) : ¬(l.isEmpty = true) := by
  cases l with
  | nil => exact absurd rfl h
  | cons x xs => intro hx; simp [List.isEmpty] at hx

theorem sumInt_foldl (l : List Int) : l.foldl (fun a b => a + b) 0 = l.sum := by
  rw [List.sum_eq_foldl]

theorem queryKDR_eval (mapFilter : Option String) (lastN : Nat) (ag : AgentFull)
    (active : ActivePlayer) (hA : ag.activePlayer = some active)
    (hn : active.name ≠ "") (ht : active.tag ≠ "")
    (hne : kdrSelect ag.db active.name active.tag mapFilter lastN ≠ []) :
    queryKDR mapFilter lastN ag =
      .result (kdrSelect ag.db active.name active.tag mapFilter lastN).length
        (mapFilter.getD "all")
        (kdrReport
          (((kdrSelect ag.db active.name active.tag mapFilter lastN).map
            (fun r => r.player_kills.getD 0)).sum)
          (((kdrSelect ag.db active.name active.tag mapFilter lastN).map
            (fun r => r.player_deaths.getD 0)).sum)) := by
  simp only [queryKDR, hA]
  rw [if_neg (by simp [hn, ht])]
  rw [if_neg (isEmpty_false_of_ne_nil hne)]
  rw [sumInt_foldl, sumInt_foldl]
  generalize (((kdrSelect ag.db active.name active.tag mapFilter lastN).map
    (fun r => r.player_kills.getD 0)).sum) = K
  generalize (((kdrSelect ag.db active.name active.tag mapFilter lastN).map
    (fun r => r.player_deaths.getD 0)).sum) = D
  unfold kdrReport
  by_cases hD : D = 0
  · rw [if_pos hD, if_pos hD]
    by_cases hK : 0 < K
    · rw [if_pos hK]
    · rw [if_neg hK]
      show KdrResult.result _ _ (.fin (toFixed2 0)) = KdrResult.result _ _ (.fin 0)
      rw [toFixed2_zero]
  · rw [if_neg hD, if_neg hD]

theorem summarize_result (mapFilter : Option String) (lastN : Nat) (ag : AgentFull)
    (active : ActivePlayer) (hA : ag.activePlayer = some active)
    (hn : active.name ≠ "") (ht : active.tag ≠ "")
    (hne : summarySelect ag.db active.name active.tag mapFilter lastN ≠ []) :
    (summarizeRecentPerformance mapFilter lastN ag).kdrOf =
      some (kdrReport
        (sumOptInt ((summarySelect ag.db active.name active.tag mapFilter lastN).map
          StatsRow.kills))
        (sumOptInt ((summarySelect ag.db active.name active.tag mapFilter lastN).map
          StatsRow.deaths))) ∧
    (summarizeRecentPerformance mapFilter lastN ag).hsRateOf =
      some (hsReport
        (sumOptInt ((summarySelect ag.db active.name active.tag mapFilter lastN).map
          StatsRow.headshots))
        (sumOptInt ((summarySelect ag.db active.name active.tag mapFilter lastN).map
          StatsRow.bodyshots))
        (sumOptInt ((summarySelect ag.db active.name active.tag mapFilter lastN).map
          StatsRow.legshots))) := by
  simp only [summarizeRecentPerformance, hA]
  rw [if_neg (by simp [hn, ht])]
  rw [if_neg (isEmpty_false_of_ne_nil hne)]
  constructor
  · simp only [SummaryResult.kdrOf]
    unfold kdrReport
    rfl
  · simp only [SummaryResult.hsRateOf]
    unfold hsReport
    rfl

/-- C6: on every non-empty selected window the reported KDR follows the
safe case analysis — Infinity on positive kills with zero deaths,
exactly 0 on zero kills and zero deaths, otherwise kills/deaths rounded
to two decimals — in queryKDR and in summarizeRecentPerformance alike,
so the division is always guarded. -/
theorem kdr_zero_division_safe (mapFilter : Option String) (lastN : Nat) (ag : AgentFull)
    (active : ActivePlayer) (hA : ag.activePlayer = some active)
    (hn : active.name ≠ "") (ht : active.tag ≠ "")
    (h1 : kdrSelect ag.db active.name active.tag mapFilter lastN ≠ [])
    (h2 : summarySelect ag.db active.name active.tag mapFilter lastN ≠ []) :
    queryKDR mapFilter lastN ag =
      .result (kdrSelect ag.db active.name active.tag mapFilter lastN).length
        (mapFilter.getD "all")
        (kdrReport
          (((kdrSelect ag.db active.name active.tag mapFilter lastN).map
            (fun r => r.player_kills.getD 0)).sum)
          (((kdrSelect ag.db active.name active.tag mapFilter lastN).map
            (fun r => r.player_deaths.getD 0)).sum)) ∧
    (summarizeRecentPerformance mapFilter lastN ag).kdrOf =
      some (kdrReport
        (sumOptInt ((summarySelect ag.db active.name active.tag mapFilter lastN).map
          StatsRow.kills))
        (sumOptInt ((summarySelect ag.db active.name active.tag mapFilter lastN).map
          StatsRow.deaths))) :=
  ⟨queryKDR_eval mapFilter lastN ag active hA hn ht h1,
   (summarize_result mapFilter lastN ag active hA hn ht h2).1⟩

/-- Closed instance of kdr_zero_division_safe: a stored window of one
match with 10 kills and 0 deaths reports Infinity in both tools. -/
theorem kdr_zero_division_safe_witness :
    queryKDR none 20 agW6 = .result 1 "all" KdrVal.infinity ∧
    (summarizeRecentPerformance none 10 agW6).kdrOf = some KdrVal.infinity := by
  have h := kdr_zero_division_safe none 20 agW6 apOllie rfl (by decide) (by decide)
    (by decide) (by decide)
  have h2 := kdr_zero_division_safe none 10 agW6 apOllie rfl (by decide) (by decide)
    (by decide) (by decide)
  exact ⟨h.1, h2.2⟩

/-- C10: null-stat rows are counted in matchesConsidered and contribute
zero kills and deaths, so a window of only null-stat shell rows reports
averageKDR exactly 0 instead of a no-data reply. -/
theorem null_stats_count_as_zero (mapFilter : Option String) (lastN : Nat) (ag : AgentFull)
    (active : ActivePlayer) (hA : ag.activePlayer = some active)
    (hn : active.name ≠ "") (ht : active.tag ≠ "")
    (hne : kdrSelect ag.db active.name active.tag mapFilter lastN ≠ [])
    (hnull : ∀ r ∈ kdrSelect ag.db active.name active.tag mapFilter lastN,
      r.player_kills = none ∧ r.player_deaths = none) :
    queryKDR mapFilter lastN ag =
      .result (kdrSelect ag.db active.name active.tag mapFilter lastN).length
        (mapFilter.getD "all") (.fin 0) := by
  rw [queryKDR_eval mapFilter lastN ag active hA hn ht hne]
  have hK : (((kdrSelect ag.db active.name active.tag mapFilter lastN).map
      (fun r => r.player_kills.getD 0)).sum) = (0 : Int) := by
    apply List.sum_eq_zero
    intro x hx
    rw [List.mem_map] at hx
    obtain ⟨r, hr, hrx⟩ := hx
    rw [← hrx, (hnull r hr).1]
    rfl
  have hD : (((kdrSelect ag.db active.name active.tag mapFilter lastN).map
      (fun r => r.player_deaths.getD 0)).sum) = (0 : Int) := by
    apply List.sum_eq_zero
    intro x hx
    rw [List.mem_map] at hx
    obtain ⟨r, hr, hrx⟩ := hx
    rw [← hrx, (hnull r hr).2]
    rfl
  rw [hK, hD]
  rfl

/-- Closed instance of null_stats_count_as_zero: a window of two
null-stat shell rows reports two matches considered and averageKDR 0. -/
theorem null_stats_count_as_zero_witness :
    queryKDR none 20 agW10 = .result 2 "all" (.fin 0) :=
  null_stats_count_as_zero none 20 agW10 apOllie rfl (by decide) (by decide)
    (by decide) (by decide)

/-- C7 counterexample: a row stored under the name Ollie is invisible to
queryKDR for the active identity ollie, though the two names agree up to
letter case, refuting case-insensitive equality in aggregation. -/
theorem aggregation_case_sensitive_counterexample :
    queryKDR none 20 agC7 = KdrResult.noData ∧
    agC7.db.valorant_matches ≠ [] ∧
    jsToLower rowCased.name = jsToLower apOllie.name ∧
    rowCased.tag = apOllie.tag ∧
    agC7.activePlayer = some apOllie := by decide

/-- C7 amended: the roster lookup inside a fetched match is
case-insensitive on name and tag, but the aggregation selections of
queryKDR, summarizeRecentPerformance and listRecentMatches compare the
stored name/tag with the active identity case-sensitively, so only rows
stored under exactly the active spelling are returned. -/
theorem case_handling_amended (name tag : String) (pp : RosterPlayer) (db : Db)
    (mapFilter : Option String) (lastN limit : Nat) :
    (rosterMatches name tag pp =
      ((pp.name.map jsToLower == some (jsToLower name)) &&
       (pp.tag.map jsToLower == some (jsToLower tag)))) ∧
    (∀ r ∈ kdrSelect db name tag mapFilter lastN, r.name = name ∧ r.tag = tag) ∧
    (∀ r ∈ summarySelect db name tag mapFilter lastN, r.name = name ∧ r.tag = tag) ∧
    (∀ r ∈ listRecentSelect db name tag limit, r.name = name ∧ r.tag = tag) := by
  refine ⟨?_, kdrSelect_names db name tag mapFilter lastN,
    summarySelect_names db name tag mapFilter lastN,
    listRecentSelect_names db name tag limit⟩
  unfold rosterMatches
  rcases pp.name with _ | s <;> rcases pp.tag with _ | s2 <;>
    simp [Option.map]

/-- Closed instance of case_handling_amended: an upper-case roster entry
matches the lower-case active identity, and a selection over a concrete
store returns only exactly-spelled rows. -/
theorem case_handling_amended_witness :
    rosterMatches "ollie" "chaos" ppW7 =
      ((ppW7.name.map jsToLower == some (jsToLower "ollie")) &&
       (ppW7.tag.map jsToLower == some (jsToLower "chaos"))) ∧
    rosterMatches "ollie" "chaos" ppW7 = true :=
  ⟨(case_handling_amended "ollie" "chaos" ppW7 agC7.db none 20 10).1, by decide⟩

/-- C8 counterexample: with 1 headshot, 1 bodyshot and 0 legshots the
tool reports 50 — the percentage — while headshots divided by total
shots is 1/2, so the reported value does not equal the claimed ratio. -/
theorem headshot_rate_percent_counterexample :
    (summarizeRecentPerformance none 10 agW8).hsRateOf = some 50 ∧
    ((1 : Rat) / ((1 : Rat) + 1 + 0) ≠ 50) := by decide

/-- C8 amended: on every non-empty selected window the reported
headshotRatePct equals 100 × headshots / (headshots + bodyshots +
legshots) over the summed window totals, rounded to two decimals, and
equals 0 when that denominator is not positive. -/
theorem headshot_rate_amended (mapFilter : Option String) (lastN : Nat) (ag : AgentFull)
    (active : ActivePlayer) (hA : ag.activePlayer = some active)
    (hn : active.name ≠ "") (ht : active.tag ≠ "")
    (hne : summarySelect ag.db active.name active.tag mapFilter lastN ≠ []) :
    (summarizeRecentPerformance mapFilter lastN ag).hsRateOf =
      some (hsReport
        (sumOptInt ((summarySelect ag.db active.name active.tag mapFilter lastN).map
          StatsRow.headshots))
        (sumOptInt ((summarySelect ag.db active.name active.tag mapFilter lastN).map
          StatsRow.bodyshots))
        (sumOptInt ((summarySelect ag.db active.name active.tag mapFilter lastN).map
          StatsRow.legshots))) :=
  (summarize_result mapFilter lastN ag active hA hn ht hne).2

/-- Closed instance of headshot_rate_amended at the 1/1/0 store. -/
theorem headshot_rate_amended_witness :
    (summarizeRecentPerformance none 10 agW8).hsRateOf =
      some (hsReport
        (sumOptInt ((summarySelect agW8.db apOllie.name apOllie.tag none 10).map
          StatsRow.headshots))
        (sumOptInt ((summarySelect agW8.db apOllie.name apOllie.tag none 10).map
          StatsRow.bodyshots))
        (sumOptInt ((summarySelect agW8.db apOllie.name apOllie.tag none 10).map
          StatsRow.legshots))) :=
  headshot_rate_amended none 10 agW8 apOllie rfl (by decide) (by decide) (by decide)

/-- C9: every rejected setActivePlayer input — riotId without a hash,
an empty name or tag after splitting, or neither a riotId nor both name
and tag — returns an error reply and leaves the agent state, including
any previously active player, unchanged. -/
theorem setActivePlayer_reject_preserves_state (input : SetActiveInput) (ag : AgentFull)
    (hrej :
      (∃ rid, input.riotId = some rid ∧
        (splitRiotId rid = none ∨
          ∃ nt, splitRiotId rid = some nt ∧ (nt.1 = "" ∨ nt.2 = ""))) ∨
      (input.riotId = none ∧
        (input.name = none ∨ input.tag = none ∨
          input.name = some "" ∨ input.tag = some ""))) :
    (setActivePlayer input ag).1.isErr = true ∧ (setActivePlayer input ag).2 = ag := by
  rcases hrej with ⟨rid, hrid, hsplit⟩ | ⟨hrid, hmiss⟩
  · simp only [setActivePlayer, hrid]
    rcases hsplit with hsplit | ⟨nt, hsplit, hempty⟩
    · simp only [hsplit]
      constructor <;> trivial
    · simp only [hsplit]
      unfold finishSetActive
      rw [if_pos (by rcases hempty with h | h <;> simp [h])]
      constructor <;> trivial
  · simp only [setActivePlayer, hrid]
    rcases hn : input.name with _ | n
    · rcases htg : input.tag with _ | t
      · simp only [hn, htg]
        constructor <;> trivial
      · simp only [hn, htg]
        unfold finishSetActive
        rw [if_pos (by simp)]
        constructor <;> trivial
    · rcases htg : input.tag with _ | t
      · simp only [hn, htg]
        unfold finishSetActive
        rw [if_pos (by simp)]
        constructor <;> trivial
      · have hnt : n = "" ∨ t = "" := by
          rcases hmiss with h | h | h | h
          · rw [hn] at h
            exact absurd h (fun hc => Option.noConfusion hc)
          · rw [htg] at h
            exact absurd h (fun hc => Option.noConfusion hc)
          · rw [hn] at h
            injection h with h
            exact Or.inl h
          · rw [htg] at h
            injection h with h
            exact Or.inr h
        simp only [hn, htg]
        unfold finishSetActive
        rw [if_pos (by rcases hnt with h | h <;> simp [h])]
        constructor <;> trivial

/-- Closed instance of setActivePlayer_reject_preserves_state: a riotId
without a hash is rejected and the previous active player survives. -/
theorem setActivePlayer_reject_preserves_state_witness :
    (setActivePlayer { riotId := some "olliechaos" } agW1).1.isErr = true ∧
    (setActivePlayer { riotId := some "olliechaos" } agW1).2 = agW1 :=
  setActivePlayer_reject_preserves_state { riotId := some "olliechaos" } agW1
    (Or.inl ⟨"olliechaos", rfl, Or.inl (by decide)⟩)

/-- C1: for a player identity with a stored cursor, a second sync in
succession against the same upstream source inserts zero MatchRecord
rows — the valorant_matches table is unchanged and the reported inserted
count is 0 — and leaves the player_cursor table, hence the cursor row's
lastMatchId and lastStartedAt, exactly as after the first call. -/
theorem sync_second_call_idempotent (src : Src) (ag : AgentFull) (active : ActivePlayer)
    (rg : String) (crow : CursorRow)
    (_hA : ag.activePlayer = some active) (_hn : active.name ≠ "") (_ht : active.tag ≠ "")
    (_hr : active.region = some rg)
    (_hcur : (ag.db.player_cursor.filter
      (fun c => c.pk == pkOf active.name active.tag rg)).head? = some crow) :
    ((ingestOrRefreshMatches src (ingestOrRefreshMatches src ag).2).1).insertedCount = 0 ∧
    (ingestOrRefreshMatches src (ingestOrRefreshMatches src ag).2).2.db.valorant_matches =
      (ingestOrRefreshMatches src ag).2.db.valorant_matches ∧
    (ingestOrRefreshMatches src (ingestOrRefreshMatches src ag).2).2.db.player_cursor =
      (ingestOrRefreshMatches src ag).2.db.player_cursor :=
  ingest_second src ag

/-- Closed instance of sync_second_call_idempotent: with m1 stored and
the cursor at m1, re-syncing the page [m2, m1] twice changes nothing on
the second call. -/
theorem sync_second_call_idempotent_witness :
    ((ingestOrRefreshMatches srcW1 (ingestOrRefreshMatches srcW1 agW1).2).1).insertedCount
        = 0 ∧
    (ingestOrRefreshMatches srcW1 (ingestOrRefreshMatches srcW1 agW1).2).2.db.valorant_matches
        = (ingestOrRefreshMatches srcW1 agW1).2.db.valorant_matches ∧
    (ingestOrRefreshMatches srcW1 (ingestOrRefreshMatches srcW1 agW1).2).2.db.player_cursor
        = (ingestOrRefreshMatches srcW1 agW1).2.db.player_cursor :=
  sync_second_call_idempotent srcW1 agW1 apOllie "na" crowW1 rfl (by decide) (by decide)
    rfl (by decide)

/-- C4: when the post-resolution upstream fetch reports a non-success
status, sync returns the explicit upstream-error result carrying that
status — never an empty success — and the database (matches, stats and
cursor tables alike) is left untouched, so the call is retryable. -/
theorem sync_upstream_error_aborts (src : Src) (ag : AgentFull) (active : ActivePlayer)
    (rg : String)
    (hA : ag.activePlayer = some active) (hn : active.name ≠ "") (ht : active.tag ≠ "")
    (hres : resolveRegion src active = some rg)
    (hok : (src rg active.name active.tag).ok = false) :
    (ingestOrRefreshMatches src ag).1 =
      .upstreamError (src rg active.name active.tag).status ∧
    (ingestOrRefreshMatches src ag).2.db = ag.db := by
  have hfok : (fetchLatestCompetitive src active.name active.tag rg).ok = false := by
    unfold fetchLatestCompetitive
    rw [if_neg (by rw [hok]; exact Bool.false_ne_true)]
  unfold resolveRegion at hres
  rcases hr : active.region with _ | r
  · rw [hr] at hres
    obtain ⟨⟨hhit1, _⟩, _⟩ := probeRegions_some src active.name active.tag REGIONS rg hres
    rw [hfok] at hhit1
    exact absurd hhit1 Bool.false_ne_true
  · rw [hr] at hres
    injection hres with hres
    subst hres
    rw [ingest_preset src ag active r hA hn ht hr]
    rw [mainSync_not_ok src active.name active.tag r ag hfok]
    refine ⟨?_, rfl⟩
    show IngestResult.upstreamError (fetchLatestCompetitive src active.name active.tag r).status
      = IngestResult.upstreamError (src r active.name active.tag).status
    congr 1
    unfold fetchLatestCompetitive
    rw [if_neg (by rw [hok]; exact Bool.false_ne_true)]

/-- Closed instance of sync_upstream_error_aborts: a 503 from the na
region surfaces as upstreamError 503 with the database unchanged. -/
theorem sync_upstream_error_aborts_witness :
    (ingestOrRefreshMatches srcErr agW1).1 = .upstreamError 503 ∧
    (ingestOrRefreshMatches srcErr agW1).2.db = agW1.db :=
  sync_upstream_error_aborts srcErr agW1 apOllie "na" rfl (by decide) (by decide) rfl rfl

theorem probeHit_congr (src src' : Src) (n t x : String)
    (h : src' x n t = src x n t) :
    probeHit src' n t x ↔ probeHit src n t x := by
  unfold probeHit
  rw [fetch_congr src' src n t x h]

/-- C5: with the region absent, sync probes the fixed candidate list
REGIONS in order. On the first candidate returning an ok non-empty
result it fixes the region, persists it onto the active player identity
and refreshes from it; if every candidate returns empty or an error it
fails with the region-resolution error and changes nothing; and the
whole call depends only on the responses of the candidates up to and
including the first success, never on later candidates. -/
theorem region_probe_first_success (src : Src) (ag : AgentFull) (active : ActivePlayer)
    (hA : ag.activePlayer = some active) (hn : active.name ≠ "") (ht : active.tag ≠ "")
    (hr : active.region = none) :
    (∀ rg, probeRegions src active.name active.tag REGIONS = some rg →
      ((ingestOrRefreshMatches src ag).2.activePlayer =
          some { active with region := some rg } ∧
        (ingestOrRefreshMatches src ag).1 =
          .refreshed active.name active.tag rg
            (ingestLoop active.name active.tag rg
              (cursorLookup ag.db.player_cursor (pkOf active.name active.tag rg))
              (fetchLatestCompetitive src active.name active.tag rg).data ag.db 0).2 ∧
        probeHit src active.name active.tag rg ∧
        (∃ preR postR, REGIONS = preR ++ rg :: postR ∧
          ∀ x ∈ preR, ¬ probeHit src active.name active.tag x))) ∧
    ((∀ x ∈ REGIONS, ¬ probeHit src active.name active.tag x) →
      ingestOrRefreshMatches src ag = (.regionUnresolved, ag)) ∧
    (∀ (src' : Src) (rg : String) (preR postR : List String),
      REGIONS = preR ++ rg :: postR →
      (∀ x ∈ preR, ¬ probeHit src active.name active.tag x) →
      probeHit src active.name active.tag rg →
      (∀ x ∈ preR ++ [rg], src' x active.name active.tag = src x active.name active.tag) →
      ingestOrRefreshMatches src' ag = ingestOrRefreshMatches src ag) := by
  refine ⟨?_, ?_, ?_⟩
  · intro rg hp
    obtain ⟨hhit, preR, postR, hsplit, hpre⟩ :=
      probeRegions_some src active.name active.tag REGIONS rg hp
    rw [ingest_probe_ok src ag active rg hA hn ht hr hp]
    refine ⟨?_, ?_, hhit, preR, postR, hsplit, hpre⟩
    · rw [mainSync_activePlayer]
    · rw [mainSync_ok src active.name active.tag rg _ hhit.1]
  · intro hnone
    exact ingest_probe_fail src ag active hA hn ht hr
      (probeRegions_none_of src active.name active.tag REGIONS hnone)
  · intro src' rg preR postR hsplit hpre hhit hagree
    have hp : probeRegions src active.name active.tag REGIONS = some rg := by
      rw [hsplit]
      exact probeRegions_first src active.name active.tag preR rg postR hpre hhit
    have hp' : probeRegions src' active.name active.tag REGIONS = some rg := by
      rw [hsplit]
      apply probeRegions_first src' active.name active.tag preR rg postR
      · intro x hx
        rw [probeHit_congr src src' active.name active.tag x
          (hagree x (List.mem_append_left _ hx))]
        exact hpre x hx
      · rw [probeHit_congr src src' active.name active.tag rg
          (hagree rg (List.mem_append_right _ (List.mem_singleton_self rg)))]
        exact hhit
    rw [ingest_probe_ok src' ag active rg hA hn ht hr hp',
      ingest_probe_ok src ag active rg hA hn ht hr hp]
    exact mainSync_congr src' src active.name active.tag rg _
      (hagree rg (List.mem_append_right _ (List.mem_singleton_self rg)))

/-- Closed instance of region_probe_first_success: with only eu holding
data, sync resolves and persists region eu and refreshes one match. -/
theorem region_probe_first_success_witness :
    (ingestOrRefreshMatches srcEuOnly agW5).2.activePlayer =
      some { region := some "eu", name := "ollie", tag := "chaos" } ∧
    (ingestOrRefreshMatches srcEuOnly agW5).1 = .refreshed "ollie" "chaos" "eu" 1 := by
  have h := (region_probe_first_success srcEuOnly agW5 apNoRegion rfl (by decide)
    (by decide) rfl).1 "eu" (by decide)
  exact ⟨h.1, h.2.1⟩

/-- C2: with the stored cursor's lastMatchId naming a match M of the
fetched page, sync walks the page newest-first, inserts exactly the
fresh matches preceding M (reporting their count and appending exactly
their rows), stops at M, and its entire outcome is independent of
everything after M in the page — the matches after M are never examined
or written. -/
theorem sync_delta_bounded (src : Src) (ag : AgentFull) (active : ActivePlayer)
    (rg L : String) (pre post : List MatchPayload) (M : MatchPayload)
    (hA : ag.activePlayer = some active) (hn : active.name ≠ "") (ht : active.tag ≠ "")
    (hr : active.region = some rg)
    (hcur : cursorLookup ag.db.player_cursor (pkOf active.name active.tag rg) = some L)
    (hL : L ≠ "")
    (hok : (src rg active.name active.tag).ok = true)
    (hdata : (src rg active.name active.tag).data = pre ++ M :: post)
    (hM : matchIdOf M = some L)
    (hpreL : ∀ m ∈ pre, matchIdOf m ≠ some L)
    (hvalid : ∀ m ∈ pre, matchIdOf m = some (midOfD m) ∧ midOfD m ≠ "")
    (hnd : (pre.map midOfD).Nodup)
    (hfresh : ∀ m ∈ pre,
      ag.db.valorant_matches.any (fun r => r.id == midOfD m) = false) :
    (ingestOrRefreshMatches src ag).1 =
      .refreshed active.name active.tag rg pre.length ∧
    (ingestOrRefreshMatches src ag).2.db.valorant_matches =
      ag.db.valorant_matches ++
        pre.map (fun m => toMatchRow active.name active.tag rg m (midOfD m)) ∧
    (∀ (src' : Src) (post' : List MatchPayload),
      (src' rg active.name active.tag).ok = true →
      (src' rg active.name active.tag).data = pre ++ M :: post' →
      ingestOrRefreshMatches src' ag = ingestOrRefreshMatches src ag) := by
  have hfok : (fetchLatestCompetitive src active.name active.tag rg).ok = true := by
    unfold fetchLatestCompetitive
    rw [if_pos hok]
  have hfdata : (fetchLatestCompetitive src active.name active.tag rg).data =
      pre ++ M :: post := by
    unfold fetchLatestCompetitive
    rw [if_pos hok]
    exact hdata
  have hbr : breakCond (some L) L = true := by
    unfold breakCond
    rw [Bool.and_eq_true, bne_iff_ne, beq_iff_eq]
    exact ⟨hL, rfl⟩
  have hbreak := ingestLoop_break active.name active.tag rg (some L) L M hM hbr
    pre post ag.db 0 hpreL
  have hvalid3 : ∀ m ∈ pre, matchIdOf m = some (midOfD m) ∧ midOfD m ≠ "" ∧
      breakCond (some L) (midOfD m) = false := by
    intro m hm
    obtain ⟨h1, h2⟩ := hvalid m hm
    refine ⟨h1, h2, ?_⟩
    unfold breakCond
    rw [Bool.and_eq_false_iff]
    right
    rw [beq_eq_false_iff_ne]
    intro hLm
    exact hpreL m hm (by rw [h1, ← hLm])
  have hloopfresh := ingestLoop_fresh active.name active.tag rg (some L)
    pre ag.db 0 hvalid3 hnd hfresh
  rw [ingest_preset src ag active rg hA hn ht hr]
  rw [mainSync_ok src active.name active.tag rg ag hfok]
  refine ⟨?_, ?_, ?_⟩
  · show IngestResult.refreshed active.name active.tag rg
      (ingestLoop active.name active.tag rg
        (cursorLookup ag.db.player_cursor (pkOf active.name active.tag rg))
        (fetchLatestCompetitive src active.name active.tag rg).data ag.db 0).2 =
      IngestResult.refreshed active.name active.tag rg pre.length
    rw [hfdata, hcur, hbreak, hloopfresh.2, Nat.zero_add]
  · show (syncDb active.name active.tag rg ag.db
      (fetchLatestCompetitive src active.name active.tag rg).data).valorant_matches =
      ag.db.valorant_matches ++
        pre.map (fun m => toMatchRow active.name active.tag rg m (midOfD m))
    rw [hfdata, syncDb_matches, hcur, hbreak, hloopfresh.1]
  · intro src' post' hok' hdata'
    have hfok' : (fetchLatestCompetitive src' active.name active.tag rg).ok = true := by
      unfold fetchLatestCompetitive
      rw [if_pos hok']
    have hfdata' : (fetchLatestCompetitive src' active.name active.tag rg).data =
        pre ++ M :: post' := by
      unfold fetchLatestCompetitive
      rw [if_pos hok']
      exact hdata'
    have hbreak' := ingestLoop_break active.name active.tag rg (some L) L M hM hbr
      pre post' ag.db 0 hpreL
    rw [ingest_preset src' ag active rg hA hn ht hr]
    rw [mainSync_ok src' active.name active.tag rg ag hfok']
    rw [hfdata', hfdata]
    have hdbeq : syncDb active.name active.tag rg ag.db (pre ++ M :: post') =
        syncDb active.name active.tag rg ag.db (pre ++ M :: post) := by
      simp only [syncDb]
      rw [hcur, hbreak, hbreak']
      rcases pre with _ | ⟨p0, pre0⟩
      · simp only [List.nil_append, List.head?_cons]
      · simp only [List.cons_append, List.head?_cons]
    rw [hdbeq, hcur, hbreak, hbreak']

/-- Closed instance of sync_delta_bounded at the spec's example: cursor
at m5, page [m8, m7, m6, m5, m4]; exactly m8, m7, m6 are inserted. -/
theorem sync_delta_bounded_witness :
    (ingestOrRefreshMatches srcW2 agW2).1 = .refreshed "ollie" "chaos" "na" 3 ∧
    (ingestOrRefreshMatches srcW2 agW2).2.db.valorant_matches =
      agW2.db.valorant_matches ++
        [payloadIdx 8, payloadIdx 7, payloadIdx 6].map
          (fun m => toMatchRow "ollie" "chaos" "na" m (midOfD m)) := by
  have h := sync_delta_bounded srcW2 agW2 apOllie "na" "m5"
    [payloadIdx 8, payloadIdx 7, payloadIdx 6] [payloadIdx 4] (payloadIdx 5)
    rfl (by decide) (by decide) rfl (by decide) (by decide) (by decide) (by decide)
    (by decide) (by decide) (by decide) (by decide) (by decide)
  exact ⟨h.1, h.2.1⟩

/-- C3 amended: MatchRecord and PlayerMatchStats rows are keyed by
match id alone, not per match × player. Syncing the active player B
only appends match rows carrying B's exact name and tag; when the
fetched page's match ids are disjoint from the stored stats rows' ids,
every previously stored stats row survives verbatim; aggregation for B
returns only rows stored under exactly B's name/tag; and the selection
for any identity spelled differently from B is unchanged by B's sync,
so a previous player's rows remain retrievable on re-activation. A
match shared by two players keeps a single row per store and the later
sync overwrites the shared stats row (see the counterexample). -/
theorem player_partition_amended (src : Src) (ag : AgentFull) (B : ActivePlayer)
    (rg : String)
    (hA : ag.activePlayer = some B) (hn : B.name ≠ "") (ht : B.tag ≠ "")
    (hr : B.region = some rg)
    (hdisj : ∀ m ∈ (src rg B.name B.tag).data, ∀ s ∈ ag.db.valorant_player_stats,
      matchIdOf m ≠ some s.match_id) :
    (∃ tl, (ingestOrRefreshMatches src ag).2.db.valorant_matches =
        ag.db.valorant_matches ++ tl ∧
        ∀ r ∈ tl, r.name = B.name ∧ r.tag = B.tag) ∧
    (∀ s ∈ ag.db.valorant_player_stats,
      s ∈ (ingestOrRefreshMatches src ag).2.db.valorant_player_stats) ∧
    (∀ (mapFilter : Option String) (lastN : Nat),
      ∀ r ∈ kdrSelect (ingestOrRefreshMatches src ag).2.db B.name B.tag mapFilter lastN,
        r.name = B.name ∧ r.tag = B.tag) ∧
    (∀ (an atg : String) (mapFilter : Option String) (lastN : Nat),
      ¬(an = B.name ∧ atg = B.tag) →
      kdrSelect (ingestOrRefreshMatches src ag).2.db an atg mapFilter lastN =
        kdrSelect ag.db an atg mapFilter lastN) := by
  rw [ingest_preset src ag B rg hA hn ht hr]
  cases hfok : (fetchLatestCompetitive src B.name B.tag rg).ok
  · rw [mainSync_not_ok src B.name B.tag rg ag hfok]
    refine ⟨⟨[], by simp, by simp⟩, fun s hs => hs, ?_, ?_⟩
    · intro mapFilter lastN r hrr
      exact kdrSelect_names _ B.name B.tag mapFilter lastN r hrr
    · intro an atg mapFilter lastN _
      rfl
  · rw [mainSync_ok src B.name B.tag rg ag hfok]
    have hd : (fetchLatestCompetitive src B.name B.tag rg).data =
        (src rg B.name B.tag).data := by
      unfold fetchLatestCompetitive at hfok ⊢
      cases hsok : (src rg B.name B.tag).ok
      · rw [if_neg (by rw [hsok]; exact Bool.false_ne_true)] at hfok
        simp at hfok
      · rw [if_pos hsok]
    obtain ⟨tl, htl, hprop⟩ := ingestLoop_matches_append B.name B.tag rg
      (cursorLookup ag.db.player_cursor (pkOf B.name B.tag rg))
      (fetchLatestCompetitive src B.name B.tag rg).data ag.db 0
    refine ⟨⟨tl, ?_, fun r hrr => ⟨(hprop r hrr).1, (hprop r hrr).2.1⟩⟩, ?_, ?_, ?_⟩
    · show (syncDb B.name B.tag rg ag.db
        (fetchLatestCompetitive src B.name B.tag rg).data).valorant_matches =
        ag.db.valorant_matches ++ tl
      rw [syncDb_matches]
      exact htl
    · intro s hs
      show s ∈ (syncDb B.name B.tag rg ag.db
        (fetchLatestCompetitive src B.name B.tag rg).data).valorant_player_stats
      rw [syncDb_stats]
      apply ingestLoop_stats_preserved B.name B.tag rg _ _ ag.db 0 s hs
      intro hk
      obtain ⟨m, hm, hmid⟩ := loopKeys_sub _ _ s.match_id hk
      rw [hd] at hm
      exact hdisj m hm s hs hmid
    · intro mapFilter lastN r hrr
      exact kdrSelect_names _ B.name B.tag mapFilter lastN r hrr
    · intro an atg mapFilter lastN hne
      refine kdrSelect_append_other ag.db tl an atg mapFilter lastN _ ?_
        (fun r hrr hc =>
          hne ⟨by rw [← hc.1, (hprop r hrr).1], by rw [← hc.2, (hprop r hrr).2.1]⟩)
      show (syncDb B.name B.tag rg ag.db
        (fetchLatestCompetitive src B.name B.tag rg).data).valorant_matches =
        ag.db.valorant_matches ++ tl
      rw [syncDb_matches]
      exact htl

/-- Closed instance of player_partition_amended: after bob syncs a
disjoint match m9, alice's stats row survives and alice's aggregation
selection is unchanged. -/
theorem player_partition_amended_witness :
    statsAlice ∈ (ingestOrRefreshMatches srcW3 agW3).2.db.valorant_player_stats ∧
    kdrSelect (ingestOrRefreshMatches srcW3 agW3).2.db "alice" "one" none 20 =
      kdrSelect agW3.db "alice" "one" none 20 := by
  have h := player_partition_amended srcW3 agW3 apBob "na" rfl (by decide) (by decide)
    rfl (by decide)
  exact ⟨h.2.1 statsAlice (by decide), h.2.2.2 "alice" "one" none 20 (by decide)⟩

/-- C3 counterexample: both stores are keyed by match id alone. After
bob syncs a match alice already has rows for, no MatchRecord row for
(match, bob) is created and alice's stats row for that match is replaced
by bob's, so alice's per-match stats do not remain retrievable. -/
theorem store_per_match_only_counterexample :
    statsAlice ∈ agShared.db.valorant_player_stats ∧
    statsAlice ∉ (ingestOrRefreshMatches srcShared agShared).2.db.valorant_player_stats ∧
    (ingestOrRefreshMatches srcShared agShared).2.db.valorant_matches = [rowAlice] ∧
    ((ingestOrRefreshMatches srcShared agShared).1).insertedCount = 0 ∧
    (∀ s, s ∈ (ingestOrRefreshMatches srcShared agShared).2.db.valorant_player_stats →
      s.name = "bob") := by decide

end ValAgent
